import Mathlib

/-!
# GamePlay `TextBox` control: a shallow embedding of `gameplay/src/TextBox.cpp`

The control owns a text buffer and a caret stored as a pixel location.  Every
conversion between pixel locations and character indices is done by the font
collaborator (`Font::getIndexAtLocation`, `Font::getLocationAtIndex`,
`Font::measureText`), which is not part of `TextBox.cpp`: it is a parameter of
the model (structure `Font`).  Style lookups (`getFont(_state)`,
`getFontSize(_state)`, ...) and the key-code constants of `Keyboard.h` are
parameters as well.

Conventions of the embedding

* `std::string` is `List Char`; `(char)key` keeps the low eight bits of `key`.
* `int` values (indices, key codes, touch coordinates) are `Int`.
* `float` coordinates (`Vector2`, `Rectangle`) are modelled by exact integers;
  only comparisons and additions of coordinates occur in the code.
* `std::string::erase` / `insert` throw `std::out_of_range` when the position
  exceeds the size, and iterator arithmetic outside `[begin, end]` is
  undefined: both are reported as a `Fault` instead of a result.
* `Game::displayKeyboard` and `notifyListeners` are recorded in two logs kept
  in the control state.
-/

namespace gameplay

/-! ## Data model -/

/-- A point in screen space (`Vector2`). -/
structure Vector2 where
  x : Int
  y : Int
deriving DecidableEq, Repr

/-- An axis-aligned rectangle (`Rectangle`). -/
structure Rectangle where
  x : Int
  y : Int
  width : Int
  height : Int
deriving DecidableEq, Repr

/-- The enum `TextBox::InputMode`. -/
inductive InputMode where
  | TEXT
  | PASSWORD
deriving DecidableEq, Repr

/-- The enum `Control::State`. -/
inductive State where
  | NORMAL
  | FOCUS
  | ACTIVE
deriving DecidableEq, Repr

/-- The enum `Touch::TouchEvent`. -/
inductive TouchEvent where
  | TOUCH_PRESS
  | TOUCH_RELEASE
  | TOUCH_MOVE
deriving DecidableEq, Repr

/-- The enum `Keyboard::KeyEvent`. -/
inductive KeyEvent where
  | KEY_PRESS
  | KEY_RELEASE
  | KEY_CHAR
deriving DecidableEq, Repr

/-- Listener event flags passed to `notifyListeners`. -/
inductive ListenerEvent where
  | TEXT_CHANGED
  | VALUE_CHANGED
deriving DecidableEq, Repr

/-- Ways in which a handler fails to return: an exception thrown by
`std::string`, or iterator arithmetic with undefined behaviour. -/
inductive Fault where
  | out_of_range
  | undefined_behaviour
deriving DecidableEq, Repr

/-- The font collaborator.  Each function receives the arguments of the C++
call in order; an out-parameter is modelled by taking its current value and
returning its new value.
* `getIndexAtLocation text clip size inLocation justify wrap rightToLeft`
  returns the index (`-1` when there is none) and the new `*outLocation`
  (the code always passes `&_caretLocation`, which aliases `inLocation`);
* `getLocationAtIndex text clip size cur destIndex justify wrap rightToLeft`
  returns the new `*outLocation`, `cur` being its value before the call;
* `measureText text clip size justify wrap ignoreClip` returns `*out`. -/
structure Font where
  getIndexAtLocation : List Char → Rectangle → Nat → Vector2 → Nat → Bool → Bool → Int × Vector2
  getLocationAtIndex : List Char → Rectangle → Nat → Vector2 → Int → Nat → Bool → Bool → Vector2
  measureText : List Char → Rectangle → Nat → Nat → Bool → Bool → Rectangle

/-- Style lookups of the base control, by interaction state: `getFont`,
`getFontSize`, `getTextAlignment` (a `Font::Justify` code) and
`getTextRightToLeft`.  The font is bound (`GP_ASSERT(font)` holds). -/
structure Style where
  getFont : State → Font
  getFontSize : State → Nat
  getTextAlignment : State → Nat
  getTextRightToLeft : State → Bool

/-- The key codes of `Keyboard.h` used by `TextBox::keyEvent`.  The labels of
one `switch` are pairwise different, as C++ requires. -/
structure Keyboard where
  KEY_CTRL : Int
  KEY_HOME : Int
  KEY_END : Int
  KEY_DELETE : Int
  KEY_TAB : Int
  KEY_LEFT_ARROW : Int
  KEY_RIGHT_ARROW : Int
  KEY_UP_ARROW : Int
  KEY_DOWN_ARROW : Int
  KEY_BACKSPACE : Int
  KEY_RETURN : Int
  KEY_ESCAPE : Int
  press_labels : [KEY_CTRL, KEY_HOME, KEY_END, KEY_DELETE, KEY_TAB, KEY_LEFT_ARROW,
    KEY_RIGHT_ARROW, KEY_UP_ARROW, KEY_DOWN_ARROW].Nodup
  char_labels : [KEY_BACKSPACE, KEY_RETURN, KEY_ESCAPE, KEY_TAB].Nodup

/-- The fields of a `TextBox` (its own and those inherited from `Label` and
`Control`) that the handlers read or write, and the two effect logs. -/
structure TextBox where
  _text : List Char
  _caretLocation : Vector2
  _prevCaretLocation : Vector2
  _lastKeypress : Int
  _passwordChar : Char
  _inputMode : InputMode
  _ctrlPressed : Bool
  _state : State
  _contactIndex : Int
  _dirty : Bool
  _consumeInputEvents : Bool
  _clipBounds : Rectangle
  _textBounds : Rectangle
  _absoluteBounds : Rectangle
  /-- Arguments of the calls `Game::getInstance()->displayKeyboard(b)`, oldest first. -/
  keyboardRequests : List Bool
  /-- Arguments of the calls `notifyListeners(e)`, oldest first. -/
  notified : List ListenerEvent

/-! ## Helpers standing for the C++ library -/

/-- The function `isspace` of the C library in the default locale: space,
`\t`, `\n`, `\v`, `\f`, `\r`. -/
def isspace (c : Char) : Bool :=
  c.toNat = 32 || (9 ≤ c.toNat && c.toNat ≤ 13)

/-- The file-local predicate `space` (TextBox.cpp:7). -/
def space (c : Char) : Bool :=
  isspace c

/-- The conversion `(char)key`: the low eight bits of the key code. -/
def toChar (key : Int) : Char :=
  Char.ofNat (key % 256).toNat

/-- The conversion `(int) contactIndex` of an `unsigned int`. -/
def toInt32 (n : Nat) : Int :=
  if n % 2 ^ 32 < 2 ^ 31 then (n % 2 ^ 32 : Nat) else ((n % 2 ^ 32 : Nat) : Int) - 2 ^ 32

/-- The characters seen through `c_str()`: those before the first NUL. -/
def c_str (s : List Char) : List Char :=
  s.takeWhile (fun c => c.toNat != 0)

/-- The call `s.erase(pos, n)` with an `int` position: a negative position
converts to a huge `size_t`, and a position beyond the size throws. -/
def erase (s : List Char) (pos : Int) (n : Nat) : Except Fault (List Char) :=
  if pos < 0 ∨ (s.length : Int) < pos then .error .out_of_range
  else .ok (s.take pos.toNat ++ s.drop (pos.toNat + n))

/-- The call `s.insert(pos, 1, c)` with an `int` position. -/
def insert (s : List Char) (pos : Int) (c : Char) : Except Fault (List Char) :=
  if pos < 0 ∨ (s.length : Int) < pos then .error .out_of_range
  else .ok (s.take pos.toNat ++ c :: s.drop pos.toNat)

/-- The algorithm `std::find_if(first, last, pred)` on positions of `l`, with
`last` the end of `l`: the first position at or after `first` whose element
satisfies `pred`, or the end position. -/
def find_if (l : List Char) (first : Nat) (pred : Char → Bool) : Nat :=
  first + (l.drop first).findIdx pred

/-! ## The operations of `TextBox.cpp` -/

/-- The method `TextBox::getDisplayedText` (TextBox.cpp:533-548). -/
def getDisplayedText (tb : TextBox) : List Char :=
  match tb._inputMode with
  | .PASSWORD => List.replicate tb._text.length tb._passwordChar
  | .TEXT => tb._text

/-- The method `TextBox::getLastKeypress` (TextBox.cpp:47-50). -/
def getLastKeypress (tb : TextBox) : Int :=
  tb._lastKeypress

/-- The call `font->getIndexAtLocation(text.c_str(), _textBounds, fontSize,
loc, &loc, textAlignment, true, rightToLeft)` with the font and style values
of the current state. -/
def indexAtLocation (st : Style) (tb : TextBox) (text : List Char) (loc : Vector2) :
    Int × Vector2 :=
  (st.getFont tb._state).getIndexAtLocation (c_str text) tb._textBounds
    (st.getFontSize tb._state) loc (st.getTextAlignment tb._state) true
    (st.getTextRightToLeft tb._state)

/-- The call `font->getLocationAtIndex(text.c_str(), _textBounds, fontSize,
&loc, index, textAlignment, true, rightToLeft)`; `cur` is the value of the
out-parameter before the call. -/
def locationAtIndex (st : Style) (tb : TextBox) (text : List Char) (cur : Vector2)
    (index : Int) : Vector2 :=
  (st.getFont tb._state).getLocationAtIndex (c_str text) tb._textBounds
    (st.getFontSize tb._state) cur index (st.getTextAlignment tb._state) true
    (st.getTextRightToLeft tb._state)

/-- The call `font->measureText(text.c_str(), _textBounds, fontSize,
&textBounds, textAlignment, true, true)`. -/
def measureText (st : Style) (tb : TextBox) (text : List Char) : Rectangle :=
  (st.getFont tb._state).measureText (c_str text) tb._textBounds
    (st.getFontSize tb._state) (st.getTextAlignment tb._state) true true

/-- The method `TextBox::setCaretLocation` (TextBox.cpp:407-467). -/
def setCaretLocation (st : Style) (tb : TextBox) (x y : Int) : TextBox :=
  let prev := tb._caretLocation
  let start : Vector2 := { x := x + tb._absoluteBounds.x, y := y + tb._absoluteBounds.y }
  let displayedText := getDisplayedText tb
  let r := indexAtLocation st tb displayedText start
  if r.1 = -1 then
    let textBounds := measureText st tb displayedText
    if r.2.x > textBounds.x + textBounds.width ∧ r.2.y > textBounds.y + textBounds.height then
      { tb with
        _prevCaretLocation := prev
        _caretLocation := locationAtIndex st tb displayedText r.2 (tb._text.length : Int) }
    else
      let cx :=
        if r.2.x < textBounds.x then textBounds.x
        else if r.2.x > textBounds.x + textBounds.width then textBounds.x + textBounds.width
        else r.2.x
      let cy :=
        if r.2.y < textBounds.y then textBounds.y
        else if r.2.y > textBounds.y + textBounds.height then
          textBounds.y + textBounds.height - (st.getFontSize tb._state : Int)
        else r.2.y
      let r2 := indexAtLocation st tb displayedText { x := cx, y := cy }
      if r2.1 = -1 then
        { tb with _prevCaretLocation := prev, _caretLocation := prev }
      else
        { tb with _prevCaretLocation := prev, _caretLocation := r2.2 }
  else
    { tb with _prevCaretLocation := prev, _caretLocation := r.2 }

/-- The bounds test of `TextBox::touchEvent` against `_clipBounds`
(TextBox.cpp:67-68, 91-92, 99-100). -/
def inClipBounds (tb : TextBox) (x y : Int) : Bool :=
  decide (x > tb._clipBounds.x) && decide (x ≤ tb._clipBounds.x + tb._clipBounds.width) &&
    decide (y > tb._clipBounds.y) && decide (y ≤ tb._clipBounds.y + tb._clipBounds.height)

/-- The method `TextBox::touchEvent` (TextBox.cpp:62-116).  The constant
`INVALID_CONTACT_INDEX` of the base control is a parameter.  The result is the
returned flag and the control after the call. -/
def touchEvent (INVALID_CONTACT_INDEX : Int) (st : Style) (tb : TextBox) (evt : TouchEvent)
    (x y : Int) (contactIndex : Nat) : Bool × TextBox :=
  match evt with
  | .TOUCH_PRESS =>
    if inClipBounds tb x y then
      let tb1 := { tb with _contactIndex := toInt32 contactIndex }
      let tb2 :=
        if tb1._state = .NORMAL then
          { tb1 with keyboardRequests := tb1.keyboardRequests ++ [true] }
        else tb1
      let tb3 := setCaretLocation st tb2 x y
      let tb4 := { tb3 with _state := .ACTIVE, _dirty := true }
      (tb4._consumeInputEvents, tb4)
    else
      (false,
        { tb with
          _contactIndex := INVALID_CONTACT_INDEX
          _state := .NORMAL
          keyboardRequests := tb.keyboardRequests ++ [false]
          _dirty := true })
  | .TOUCH_MOVE =>
    if tb._state = .ACTIVE ∧ inClipBounds tb x y = true then
      let tb1 := setCaretLocation st tb x y
      let tb2 := { tb1 with _dirty := true }
      (tb2._consumeInputEvents, tb2)
    else
      (tb._consumeInputEvents, tb)
  | .TOUCH_RELEASE =>
    let tb1 :=
      if inClipBounds tb x y then
        { setCaretLocation st tb x y with _state := .FOCUS }
      else
        { tb with _state := .NORMAL, keyboardRequests := tb.keyboardRequests ++ [false] }
    let tb2 := { tb1 with _contactIndex := INVALID_CONTACT_INDEX, _dirty := true }
    (tb2._consumeInputEvents, tb2)

/-- The new index of a Left-arrow press with the modifier held
(TextBox.cpp:193-194).  A reverse iterator is represented by its distance from
`rbegin()`, so `rend()` is `size` and `rend() - n` is `size - n`, which is an
iterator of the string only for `0 ≤ n ≤ size`; the reverse iterator at
distance `r` has `base()` equal to `begin() + (size - r)`. -/
def wordLeftIndex (displayedText : List Char) (textIndex : Int) : Except Fault Int :=
  let n := textIndex - 1
  if n < 0 ∨ (displayedText.length : Int) < n then .error .undefined_behaviour
  else
    let it := find_if displayedText.reverse (displayedText.length - n.toNat) space
    .ok ((displayedText.length - it : Nat) : Int)

/-- The new index of a Right-arrow press with the modifier held
(TextBox.cpp:218-219): `begin() + n` is an iterator of the string only for
`0 ≤ n ≤ size`. -/
def wordRightIndex (displayedText : List Char) (textIndex : Int) : Except Fault Int :=
  let n := textIndex + 1
  if n < 0 ∨ (displayedText.length : Int) < n then .error .undefined_behaviour
  else .ok (find_if displayedText n.toNat space : Nat)

/-- The new index of a Left-arrow press (TextBox.cpp:191-199). -/
def leftArrowIndex (ctrlPressed : Bool) (displayedText : List Char) (textIndex : Int) :
    Except Fault Int :=
  if ctrlPressed then wordLeftIndex displayedText textIndex else .ok (textIndex - 1)

/-- The new index of a Right-arrow press (TextBox.cpp:216-224). -/
def rightArrowIndex (ctrlPressed : Bool) (displayedText : List Char) (textIndex : Int) :
    Except Fault Int :=
  if ctrlPressed then wordRightIndex displayedText textIndex else .ok (textIndex + 1)

/-- The test after inserting a space (TextBox.cpp:325-326): the caret is at or
beyond the right or bottom edge of the text bounds. -/
def caretOutside (textBounds : Rectangle) (caret : Vector2) : Bool :=
  decide (caret.x ≥ textBounds.x + textBounds.width) ||
    decide (caret.y ≥ textBounds.y + textBounds.height)

/-- The test on the measured text (TextBox.cpp:341-342): `measured` starts
before the origin of the text bounds or is at least as wide or as high. -/
def textOverflows (textBounds measured : Rectangle) : Bool :=
  decide (measured.x < textBounds.x) || decide (measured.y < textBounds.y) ||
    decide (measured.width ≥ textBounds.width) || decide (measured.height ≥ textBounds.height)

/-- The end of `TextBox::keyEvent` (TextBox.cpp:374-376). -/
def recordKey (tb : TextBox) (key : Int) : Bool × TextBox :=
  (tb._consumeInputEvents, { tb with _lastKeypress := key })

/-- The case `KEY_HOME` (TextBox.cpp:131-142). -/
def keyHome (st : Style) (tb : TextBox) : TextBox :=
  { tb with
    _caretLocation := locationAtIndex st tb (getDisplayedText tb) tb._caretLocation 0
    _dirty := true }

/-- The case `KEY_END` (TextBox.cpp:143-155). -/
def keyEnd (st : Style) (tb : TextBox) : TextBox :=
  let displayedText := getDisplayedText tb
  { tb with
    _caretLocation :=
      locationAtIndex st tb displayedText tb._caretLocation (displayedText.length : Int)
    _dirty := true }

/-- The case `KEY_DELETE` (TextBox.cpp:156-173). -/
def keyDelete (st : Style) (tb : TextBox) : Except Fault TextBox :=
  let r := indexAtLocation st tb (getDisplayedText tb) tb._caretLocation
  match erase tb._text r.1 1 with
  | .error f => .error f
  | .ok text =>
    let tb1 := { tb with _text := text }
    .ok { tb1 with
      _caretLocation := locationAtIndex st tb1 (getDisplayedText tb1) r.2 r.1
      _dirty := true
      notified := tb.notified ++ [ListenerEvent.TEXT_CHANGED] }

/-- The case `KEY_LEFT_ARROW` (TextBox.cpp:180-204). -/
def keyLeftArrow (st : Style) (tb : TextBox) : Except Fault TextBox :=
  let displayedText := getDisplayedText tb
  let r := indexAtLocation st tb displayedText tb._caretLocation
  match leftArrowIndex tb._ctrlPressed displayedText r.1 with
  | .error f => .error f
  | .ok textIndex =>
    .ok { tb with
      _caretLocation := locationAtIndex st tb displayedText r.2 textIndex
      _dirty := true }

/-- The case `KEY_RIGHT_ARROW` (TextBox.cpp:205-229). -/
def keyRightArrow (st : Style) (tb : TextBox) : Except Fault TextBox :=
  let displayedText := getDisplayedText tb
  let r := indexAtLocation st tb displayedText tb._caretLocation
  match rightArrowIndex tb._ctrlPressed displayedText r.1 with
  | .error f => .error f
  | .ok textIndex =>
    .ok { tb with
      _caretLocation := locationAtIndex st tb displayedText r.2 textIndex
      _dirty := true }

/-- The cases `KEY_UP_ARROW` and `KEY_DOWN_ARROW` (TextBox.cpp:230-267);
`dy` is `-fontSize` for up and `fontSize` for down. -/
def keyVertical (st : Style) (tb : TextBox) (dy : Int) : TextBox :=
  let prev := tb._caretLocation
  let r := indexAtLocation st tb (getDisplayedText tb) { x := prev.x, y := prev.y + dy }
  { tb with
    _prevCaretLocation := prev
    _caretLocation := if r.1 = -1 then prev else r.2
    _dirty := true }

/-- The index resolution at the start of the `KEY_CHAR` case
(TextBox.cpp:280-287): the resolved index and the caret location after it. -/
def resolveCharIndex (st : Style) (tb : TextBox) : Int × Vector2 :=
  let r := indexAtLocation st tb (getDisplayedText tb) tb._caretLocation
  if r.1 = -1 then (0, locationAtIndex st tb (getDisplayedText tb) r.2 0) else r

/-- The case `KEY_BACKSPACE` of the `KEY_CHAR` switch (TextBox.cpp:291-303);
`tb` already holds the caret location left by the index resolution. -/
def charBackspace (st : Style) (tb : TextBox) (textIndex : Int) : Except Fault TextBox :=
  if textIndex > 0 then
    match erase tb._text (textIndex - 1) 1 with
    | .error f => .error f
    | .ok text =>
      let tb1 := { tb with _text := text }
      .ok { tb1 with
        _caretLocation :=
          locationAtIndex st tb1 (getDisplayedText tb1) tb._caretLocation (textIndex - 1)
        _dirty := true }
  else .ok tb

/-- The undoing of an insertion (TextBox.cpp:329-331 and 345-347, the same
statements): erase the character at `textIndex` and move the caret to the
location of `textIndex`. -/
def undoInsert (st : Style) (tb : TextBox) (textIndex : Int) : Except Fault TextBox :=
  match erase tb._text textIndex 1 with
  | .error f => .error f
  | .ok old =>
    let tb1 := { tb with _text := old }
    .ok { tb1 with
      _caretLocation := locationAtIndex st tb1 (getDisplayedText tb1) tb._caretLocation textIndex }

/-- The default case of the `KEY_CHAR` switch (TextBox.cpp:313-355): insert
the character, then undo the insertion when a containment test fails. -/
def charInsert (st : Style) (tb : TextBox) (textIndex : Int) (key : Int) :
    Except Fault TextBox :=
  match insert tb._text textIndex (toChar key) with
  | .error f => .error f
  | .ok text =>
    let tb1 := { tb with _text := text }
    let tb2 :=
      { tb1 with
        _caretLocation :=
          locationAtIndex st tb1 (getDisplayedText tb1) tb._caretLocation (textIndex + 1) }
    if key = 32 ∧ caretOutside tb2._textBounds tb2._caretLocation = true then
      undoInsert st tb2 textIndex
    else if textOverflows tb2._textBounds (measureText st tb2 (getDisplayedText tb2)) then
      undoInsert st tb2 textIndex
    else .ok { tb2 with _dirty := true }

/-- The method `TextBox::keyEvent` (TextBox.cpp:118-377).  The result is the
returned flag and the control after the call, or the fault that prevents the
call from returning. -/
def keyEvent (K : Keyboard) (st : Style) (tb : TextBox) (evt : KeyEvent) (key : Int) :
    Except Fault (Bool × TextBox) :=
  match evt with
  | .KEY_PRESS =>
    if key = K.KEY_CTRL then .ok (recordKey { tb with _ctrlPressed := true } key)
    else if key = K.KEY_HOME then .ok (recordKey (keyHome st tb) key)
    else if key = K.KEY_END then .ok (recordKey (keyEnd st tb) key)
    else if key = K.KEY_DELETE then
      match keyDelete st tb with
      | .error f => .error f
      | .ok tb1 => .ok (recordKey tb1 key)
    else if key = K.KEY_TAB then .ok (false, tb)
    else if key = K.KEY_LEFT_ARROW then
      match keyLeftArrow st tb with
      | .error f => .error f
      | .ok tb1 => .ok (recordKey tb1 key)
    else if key = K.KEY_RIGHT_ARROW then
      match keyRightArrow st tb with
      | .error f => .error f
      | .ok tb1 => .ok (recordKey tb1 key)
    else if key = K.KEY_UP_ARROW then
      .ok (recordKey (keyVertical st tb (-(st.getFontSize tb._state : Int))) key)
    else if key = K.KEY_DOWN_ARROW then
      .ok (recordKey (keyVertical st tb (st.getFontSize tb._state : Int)) key)
    else .ok (recordKey tb key)
  | .KEY_CHAR =>
    let r := resolveCharIndex st tb
    let tb0 := { tb with _caretLocation := r.2 }
    let edited : Except Fault (Option TextBox) :=
      if key = K.KEY_BACKSPACE then (charBackspace st tb0 r.1).map some
      else if key = K.KEY_RETURN then .ok (some tb0)
      else if key = K.KEY_ESCAPE then .ok (some tb0)
      else if key = K.KEY_TAB then .ok none
      else (charInsert st tb0 r.1 key).map some
    match edited with
    | .error f => .error f
    | .ok none => .ok (false, tb0)
    | .ok (some tb1) =>
      .ok (recordKey { tb1 with notified := tb1.notified ++ [ListenerEvent.TEXT_CHANGED] } key)
  | .KEY_RELEASE =>
    if key = K.KEY_CTRL then .ok (recordKey { tb with _ctrlPressed := false } key)
    else .ok (recordKey tb key)

/-- A sequence of calls of `keyEvent`, each on the control left by the one
before; the run stops at the first call that does not return. -/
def keyEvents (K : Keyboard) (st : Style) : TextBox → List (KeyEvent × Int) → Except Fault TextBox
  | tb, [] => .ok tb
  | tb, e :: rest =>
    match keyEvent K st tb e.1 e.2 with
    | .error f => .error f
    | .ok r => keyEvents K st r.2 rest

/-- The calls of a run of `keyEvents`: each event that is handled, paired with
the control it is handled on. -/
def keyTrace (K : Keyboard) (st : Style) :
    TextBox → List (KeyEvent × Int) → List (TextBox × KeyEvent × Int)
  | _, [] => []
  | tb, e :: rest =>
    (tb, e.1, e.2) ::
      match keyEvent K st tb e.1 e.2 with
      | .error _ => []
      | .ok r => keyTrace K st r.2 rest

/-- Modelled from the spec: the macro `GP_ERROR`, which `TextBox.cpp` uses but
does not define.  The spec describes an unsupported input-mode token as a
reported configuration error after which the code falls back to a safe
default rather than aborting, so the macro adds the reported value to the
error log and execution continues. -/
def GP_ERROR (log : List (List Char)) (value : List Char) : List (List Char) :=
  log ++ [value]

/-- The static method `TextBox::getInputMode(const char*)` (TextBox.cpp:509-531).
The token is `none` for a null pointer and otherwise the characters of the C
string; `strcmp(a, b) == 0` is equality of the two strings.  The result is the
returned mode and the errors reported through `GP_ERROR`. -/
def getInputMode (inputMode : Option (List Char)) : InputMode × List (List Char) :=
  match inputMode with
  | none => (.TEXT, [])
  | some s =>
    if s = "TEXT".toList then (.TEXT, [])
    else if s = "PASSWORD".toList then (.PASSWORD, [])
    else (.TEXT, GP_ERROR [] s)

/-! ## Vocabulary of the statements -/

/-- The index the font reports for the current caret location on the
displayed text (the value of `textIndex` at TextBox.cpp:164, 189, 214, 280). -/
def fontIndex (st : Style) (tb : TextBox) : Int :=
  (indexAtLocation st tb (getDisplayedText tb) tb._caretLocation).1

/-- The index the handler resolves for an event lies inside `[0, length]`:
for a `KEY_CHAR` event the index left by the resolution of TextBox.cpp:280-287,
for a press of Delete, Left-arrow or Right-arrow the index the font reports;
the other events use no index on the string. -/
def ResolvedInRange (K : Keyboard) (st : Style) (c : TextBox × KeyEvent × Int) : Prop :=
  match c.2.1 with
  | .KEY_CHAR =>
    0 ≤ (resolveCharIndex st c.1).1 ∧ (resolveCharIndex st c.1).1 ≤ (c.1._text.length : Int)
  | .KEY_PRESS =>
    (c.2.2 = K.KEY_DELETE ∨ c.2.2 = K.KEY_LEFT_ARROW ∨ c.2.2 = K.KEY_RIGHT_ARROW) →
      0 ≤ fontIndex st c.1 ∧ fontIndex st c.1 ≤ (c.1._text.length : Int)
  | .KEY_RELEASE => True

instance (K : Keyboard) (st : Style) (c : TextBox × KeyEvent × Int) :
    Decidable (ResolvedInRange K st c) := by
  unfold ResolvedInRange
  cases c.2.1 <;> exact inferInstance

/-- The key takes the default case of the `KEY_CHAR` switch. -/
def IsInsertKey (K : Keyboard) (key : Int) : Prop :=
  key ≠ K.KEY_BACKSPACE ∧ key ≠ K.KEY_RETURN ∧ key ≠ K.KEY_ESCAPE ∧ key ≠ K.KEY_TAB

instance (K : Keyboard) (key : Int) : Decidable (IsInsertKey K key) := by
  unfold IsInsertKey; exact inferInstance

/-- The control after the index resolution of the `KEY_CHAR` case
(TextBox.cpp:280-287): only the caret location may have moved. -/
def afterResolve (st : Style) (tb : TextBox) : TextBox :=
  { tb with _caretLocation := (resolveCharIndex st tb).2 }

/-- The control holding the buffer with `toChar key` inserted at position `i`
and the caret moved to index `i + 1`, as it is when the containment tests of
the default case run (TextBox.cpp:316-320); `tb` holds the caret location
left by the index resolution. -/
def afterInsert (st : Style) (tb : TextBox) (i : Nat) (key : Int) : TextBox :=
  let tb1 := { tb with _text := tb._text.take i ++ toChar key :: tb._text.drop i }
  { tb1 with
    _caretLocation := locationAtIndex st tb1 (getDisplayedText tb1) tb._caretLocation (i + 1) }

/-- The state left by the default case of the `KEY_CHAR` switch when the
insertion is undone: the buffer is the one before the event and the caret is
moved back to index `i`. -/
def afterRollback (st : Style) (tb : TextBox) (i : Nat) (key : Int) : TextBox :=
  { tb with
    _caretLocation :=
      locationAtIndex st tb (getDisplayedText tb) (afterInsert st tb i key)._caretLocation i }

/-- The control after a `KEY_CHAR` event that inserts `toChar key` at index
`i` and keeps it. -/
def keptState (st : Style) (tb : TextBox) (i : Nat) (key : Int) : TextBox :=
  { afterInsert st (afterResolve st tb) i key with
    _dirty := true
    notified := tb.notified ++ [ListenerEvent.TEXT_CHANGED]
    _lastKeypress := key }

/-- The first containment test fails: the key is a space and the caret after
the insertion is outside the text bounds (TextBox.cpp:322-326). -/
def spaceRejected (st : Style) (tb : TextBox) (i : Nat) (key : Int) : Bool :=
  decide (key = 32) &&
    caretOutside tb._textBounds (afterInsert st tb i key)._caretLocation

/-- The second containment test fails: the text measured after the insertion
overflows the text bounds (TextBox.cpp:340-342). -/
def measureRejected (st : Style) (tb : TextBox) (i : Nat) (key : Int) : Bool :=
  textOverflows tb._textBounds
    (measureText st tb (getDisplayedText (afterInsert st tb i key)))

/-- An event of a run that inserts a character and keeps it: a `KEY_CHAR`
event of the default case whose insertion passes both containment tests. -/
def keptInsertion (K : Keyboard) (st : Style) (c : TextBox × KeyEvent × Int) : Bool :=
  let i := (resolveCharIndex st c.1).1.toNat
  decide (c.2.1 = KeyEvent.KEY_CHAR) && decide (IsInsertKey K c.2.2) &&
    !spaceRejected st (afterResolve st c.1) i c.2.2 &&
    !measureRejected st (afterResolve st c.1) i c.2.2

/-- An event of a run that removes a character: a Delete press with the
caret before the end, or a Backspace character event with the caret after the
start. -/
def removal (K : Keyboard) (st : Style) (c : TextBox × KeyEvent × Int) : Bool :=
  (decide (c.2.1 = KeyEvent.KEY_PRESS) && decide (c.2.2 = K.KEY_DELETE) &&
      decide (fontIndex st c.1 < (c.1._text.length : Int))) ||
    (decide (c.2.1 = KeyEvent.KEY_CHAR) && decide (c.2.2 = K.KEY_BACKSPACE) &&
      decide (0 < (resolveCharIndex st c.1).1))

/-- A press of Left-arrow at index 0 or of Right-arrow at index `length` with
the modifier held: the iterator arithmetic of TextBox.cpp:193 and 218 leaves
the string, so the call has no defined result. -/
def wordJumpUndefined (K : Keyboard) (st : Style) (c : TextBox × KeyEvent × Int) : Bool :=
  decide (c.2.1 = KeyEvent.KEY_PRESS) && c.1._ctrlPressed &&
    ((decide (c.2.2 = K.KEY_LEFT_ARROW) && decide (fontIndex st c.1 = 0)) ||
      (decide (c.2.2 = K.KEY_RIGHT_ARROW) &&
        decide (fontIndex st c.1 = (c.1._text.length : Int))))

/-- The point at which `setCaretLocation` first asks the font for an index
(TextBox.cpp:411-412): the touch point moved by the absolute position of the
control. -/
def touchPoint (tb : TextBox) (x y : Int) : Vector2 :=
  { x := x + tb._absoluteBounds.x, y := y + tb._absoluteBounds.y }

/-- The clamping of `setCaretLocation` (TextBox.cpp:437-456) applied to the
caret location `p`: `x` is brought into the horizontal extent of the measured
text and `y` into its vertical extent, a point below the text going one font
size above the bottom edge. -/
def clampedPoint (st : Style) (tb : TextBox) (p : Vector2) : Vector2 :=
  let textBounds := measureText st tb (getDisplayedText tb)
  { x :=
      if p.x < textBounds.x then textBounds.x
      else if p.x > textBounds.x + textBounds.width then textBounds.x + textBounds.width
      else p.x
    y :=
      if p.y < textBounds.y then textBounds.y
      else if p.y > textBounds.y + textBounds.height then
        textBounds.y + textBounds.height - (st.getFontSize tb._state : Int)
      else p.y }

/-! ## Concrete collaborators for evaluating the handlers -/

/-- A fixed-pitch, single-line font: every glyph is 8 wide, index `i` is at
`x = clip.x + 8 * i` on the top line of the clip, and a point resolves to an
index when it is on that line and not left of the clip or right of the text. -/
def monoFont : Font where
  getIndexAtLocation text clip size loc _ _ _ :=
    if loc.x < clip.x ∨ clip.x + 8 * (text.length : Int) < loc.x ∨ loc.y < clip.y ∨
        clip.y + (size : Int) ≤ loc.y then (-1, loc)
    else ((loc.x - clip.x) / 8, { x := clip.x + 8 * ((loc.x - clip.x) / 8), y := clip.y })
  getLocationAtIndex _ clip _ _ i _ _ _ := { x := clip.x + 8 * i, y := clip.y }
  measureText text clip size _ _ _ :=
    { x := clip.x, y := clip.y, width := 8 * (text.length : Int), height := size }

/-- A font that differs from `monoFont` in resolving every point to index 0. -/
def homeFont : Font where
  getIndexAtLocation _ clip _ _ _ _ _ := (0, { x := clip.x, y := clip.y })
  getLocationAtIndex := monoFont.getLocationAtIndex
  measureText := monoFont.measureText

/-- The style giving `monoFont` at size 16, left aligned, in every state. -/
def monoStyle : Style where
  getFont _ := monoFont
  getFontSize _ := 16
  getTextAlignment _ := 0
  getTextRightToLeft _ := false

/-- The style giving `homeFont` at size 16, left aligned, in every state. -/
def homeStyle : Style where
  getFont _ := homeFont
  getFontSize _ := 16
  getTextAlignment _ := 0
  getTextRightToLeft _ := false

/-- A table of pairwise different key codes. -/
def sampleKeys : Keyboard where
  KEY_CTRL := 0xFFE3
  KEY_HOME := 0xFF50
  KEY_END := 0xFF57
  KEY_DELETE := 0x007F
  KEY_TAB := 0x0009
  KEY_LEFT_ARROW := 0xFF51
  KEY_RIGHT_ARROW := 0xFF53
  KEY_UP_ARROW := 0xFF52
  KEY_DOWN_ARROW := 0xFF54
  KEY_BACKSPACE := 0x0008
  KEY_RETURN := 0x000D
  KEY_ESCAPE := 0x001B
  press_labels := by decide
  char_labels := by decide

/-- A text box in TEXT mode holding `text`, with the caret at pixel
`(8 * caret, 0)`, text and clip bounds `200 x 20` at the origin, focused,
consuming input events, with empty logs. -/
def sampleBox (text : List Char) (caret : Int) : TextBox where
  _text := text
  _caretLocation := { x := 8 * caret, y := 0 }
  _prevCaretLocation := { x := 0, y := 0 }
  _lastKeypress := 0
  _passwordChar := '*'
  _inputMode := .TEXT
  _ctrlPressed := false
  _state := .FOCUS
  _contactIndex := -1
  _dirty := false
  _consumeInputEvents := true
  _clipBounds := { x := 0, y := 0, width := 200, height := 20 }
  _textBounds := { x := 0, y := 0, width := 200, height := 20 }
  _absoluteBounds := { x := 0, y := 0, width := 200, height := 20 }
  keyboardRequests := []
  notified := []

/-! ## Input-mode policy -/

/-- C1: in TEXT mode `getDisplayedText` returns the buffer itself; in PASSWORD
mode it returns a string as long as the buffer whose every character is the
mask character; the buffer "pw12" with mask `#` is displayed as "####". -/
theorem getDisplayedText_text_or_mask (tb : TextBox) :
    (match tb._inputMode with
      | .TEXT => getDisplayedText tb = tb._text
      | .PASSWORD =>
        (getDisplayedText tb).length = tb._text.length ∧
          ∀ c ∈ getDisplayedText tb, c = tb._passwordChar) ∧
      getDisplayedText
        { tb with _inputMode := .PASSWORD, _passwordChar := '#', _text := "pw12".toList } =
        "####".toList := by
  refine ⟨?_, rfl⟩
  cases h : tb._inputMode with
  | TEXT => simp [getDisplayedText, h]
  | PASSWORD =>
    simp only [getDisplayedText, h]
    exact ⟨List.length_replicate _ _, fun c hc => List.eq_of_mem_replicate hc⟩

/-! ## Buffer edits -/

theorem insert_at (s : List Char) (i : Nat) (c : Char) (hi : i ≤ s.length) :
    gameplay.insert s (i : Int) c = .ok (s.take i ++ c :: s.drop i) := by
  have h : ¬ ((i : Int) < 0 ∨ (s.length : Int) < (i : Int)) := by omega
  unfold gameplay.insert
  rw [if_neg h, Int.toNat_ofNat]

theorem erase_at (s : List Char) (i : Nat) (hi : i ≤ s.length) :
    gameplay.erase s (i : Int) 1 = .ok (s.take i ++ s.drop (i + 1)) := by
  have h : ¬ ((i : Int) < 0 ∨ (s.length : Int) < (i : Int)) := by omega
  unfold gameplay.erase
  rw [if_neg h, Int.toNat_ofNat]

theorem erase_inserted (s : List Char) (i : Nat) (c : Char) (hi : i ≤ s.length) :
    gameplay.erase (s.take i ++ c :: s.drop i) (i : Int) 1 = .ok s := by
  have hl : (s.take i).length = i := by simp [List.length_take]; omega
  have hlen : (s.take i ++ c :: s.drop i).length = s.length + 1 := by
    simp [List.length_take, List.length_drop]; omega
  rw [erase_at _ _ (by omega)]
  have h1 : (s.take i ++ c :: s.drop i).take i = s.take i := by
    rw [List.take_append_of_le_length (by omega)]
    rw [List.take_take]; simp
  have h2 : (s.take i ++ c :: s.drop i).drop (i + 1) = s.drop i := by
    rw [List.drop_append_eq_append_drop, hl]
    simp [List.drop_eq_nil_of_le, hl]
  rw [h1, h2, List.take_append_drop]

theorem undoInsert_afterInsert (st : Style) (tb : TextBox) (i : Nat) (key : Int)
    (hi : i ≤ tb._text.length) :
    undoInsert st (afterInsert st tb i key) (i : Int) = .ok (afterRollback st tb i key) := by
  unfold undoInsert
  have ht : (afterInsert st tb i key)._text =
      tb._text.take i ++ toChar key :: tb._text.drop i := rfl
  rw [ht, erase_inserted _ _ _ hi]
  rfl

theorem charInsert_at (st : Style) (tb : TextBox) (i : Nat) (key : Int)
    (hi : i ≤ tb._text.length) :
    charInsert st tb (i : Int) key =
      .ok (if spaceRejected st tb i key = true ∨ measureRejected st tb i key = true then
          afterRollback st tb i key
        else { afterInsert st tb i key with _dirty := true }) := by
  unfold charInsert
  rw [insert_at _ _ _ hi]
  show (if key = 32 ∧
          caretOutside tb._textBounds (afterInsert st tb i key)._caretLocation = true then
        undoInsert st (afterInsert st tb i key) (i : Int)
      else if textOverflows tb._textBounds
          (measureText st tb (getDisplayedText (afterInsert st tb i key))) = true then
        undoInsert st (afterInsert st tb i key) (i : Int)
      else .ok { afterInsert st tb i key with _dirty := true }) = _
  rw [undoInsert_afterInsert st tb i key hi]
  by_cases hs : key = 32 ∧
      caretOutside tb._textBounds (afterInsert st tb i key)._caretLocation = true
  · have hs2 : spaceRejected st tb i key = true := by
      simp only [spaceRejected, Bool.and_eq_true, decide_eq_true_eq]; exact hs
    rw [if_pos hs, if_pos (Or.inl hs2)]
  · have hs2 : ¬ spaceRejected st tb i key = true := by
      simp only [spaceRejected, Bool.and_eq_true, decide_eq_true_eq]; exact hs
    rw [if_neg hs]
    by_cases hm : measureRejected st tb i key = true
    · rw [if_pos (Or.inr hm)]
      have hm2 : textOverflows tb._textBounds
          (measureText st tb (getDisplayedText (afterInsert st tb i key))) = true := hm
      rw [if_pos hm2]
    · have hm2 : ¬ textOverflows tb._textBounds
          (measureText st tb (getDisplayedText (afterInsert st tb i key))) = true := hm
      rw [if_neg hm2, if_neg (by tauto)]

theorem toChar_toNat (c : Char) (hc : c.toNat < 256) : toChar (c.toNat : Int) = c := by
  have h : ((c.toNat : Int) % 256).toNat = c.toNat := by omega
  unfold toChar
  rw [h]
  exact Char.ofNat_toNat c

theorem keyEvent_char_default_aux (K : Keyboard) (st : Style) (tb : TextBox) (key : Int)
    (hkey : IsInsertKey K key) :
    keyEvent K st tb .KEY_CHAR key =
      match charInsert st { tb with _caretLocation := (resolveCharIndex st tb).2 }
          (resolveCharIndex st tb).1 key with
      | .error f => .error f
      | .ok tb1 =>
        .ok (recordKey
          { tb1 with notified := tb1.notified ++ [ListenerEvent.TEXT_CHANGED] } key) := by
  obtain ⟨h1, h2, h3, h4⟩ := hkey
  simp only [keyEvent, if_neg h1, if_neg h2, if_neg h3, if_neg h4]
  cases charInsert st { tb with _caretLocation := (resolveCharIndex st tb).2 }
      (resolveCharIndex st tb).1 key <;> rfl

/-- The default case of the `KEY_CHAR` switch is the call of `charInsert` on
the control left by the index resolution, followed by the notification and the
recording of the key. -/
theorem keyEvent_char_default (K : Keyboard) (st : Style) (tb : TextBox) (key : Int)
    (hkey : IsInsertKey K key) :
    keyEvent K st tb .KEY_CHAR key =
      match charInsert st (afterResolve st tb) (resolveCharIndex st tb).1 key with
      | .error f => .error f
      | .ok tb1 =>
        .ok (recordKey
          { tb1 with notified := tb1.notified ++ [ListenerEvent.TEXT_CHANGED] } key) :=
  keyEvent_char_default_aux K st tb key hkey

/-! ## One key event and the length of the buffer -/

theorem length_erase_at (s : List Char) (i : Nat) (hi : i ≤ s.length) :
    (s.take i ++ s.drop (i + 1)).length + (decide (i < s.length)).toNat = s.length := by
  rw [List.length_append, List.length_take, List.length_drop]
  by_cases h : i < s.length
  · simp only [h, decide_True, Bool.toNat_true]; omega
  · simp only [h, decide_False, Bool.toNat_false]; omega

theorem length_insert_at (s : List Char) (i : Nat) (c : Char) :
    (s.take i ++ c :: s.drop i).length = s.length + 1 := by
  rw [List.length_append, List.length_cons, List.length_take, List.length_drop]
  omega

theorem keyDelete_at (st : Style) (tb : TextBox) (i : Nat) (hidx : fontIndex st tb = (i : Int))
    (hi : i ≤ tb._text.length) :
    ∃ tb1, keyDelete st tb = .ok tb1 ∧ tb1._text = tb._text.take i ++ tb._text.drop (i + 1) ∧
      tb1._consumeInputEvents = tb._consumeInputEvents := by
  unfold keyDelete
  have h1 : (indexAtLocation st tb (getDisplayedText tb) tb._caretLocation).1 = (i : Int) := hidx
  simp only [h1, erase_at _ _ hi]
  exact ⟨_, rfl, rfl, rfl⟩

theorem keyLeftArrow_frame (st : Style) (tb tb1 : TextBox) (h : keyLeftArrow st tb = .ok tb1) :
    tb1._text = tb._text ∧ tb1._consumeInputEvents = tb._consumeInputEvents := by
  unfold keyLeftArrow at h
  simp only [] at h
  split at h
  · exact absurd h (by simp)
  · injection h with h
    subst h
    exact ⟨rfl, rfl⟩

theorem keyRightArrow_frame (st : Style) (tb tb1 : TextBox) (h : keyRightArrow st tb = .ok tb1) :
    tb1._text = tb._text ∧ tb1._consumeInputEvents = tb._consumeInputEvents := by
  unfold keyRightArrow at h
  simp only [] at h
  split at h
  · exact absurd h (by simp)
  · injection h with h
    subst h
    exact ⟨rfl, rfl⟩

theorem charBackspace_at (st : Style) (tb : TextBox) (i : Nat) (hi : i ≤ tb._text.length) :
    ∃ tb1, charBackspace st tb (i : Int) = .ok tb1 ∧
      tb1._text = (if 0 < i then tb._text.take (i - 1) ++ tb._text.drop i else tb._text) ∧
      tb1._dirty = (if 0 < i then true else tb._dirty) ∧
      tb1._consumeInputEvents = tb._consumeInputEvents := by
  unfold charBackspace
  by_cases h : 0 < i
  · have h1 : (i : Int) > 0 := by omega
    have h2 : (i : Int) - 1 = ((i - 1 : Nat) : Int) := by omega
    have h3 : i - 1 + 1 = i := by omega
    simp only [if_pos h1, if_pos h, h2, erase_at tb._text (i - 1) (by omega), h3]
    exact ⟨_, rfl, rfl, rfl, rfl⟩
  · have h1 : ¬ (i : Int) > 0 := by omega
    simp only [if_neg h1, if_neg h]
    exact ⟨_, rfl, rfl, rfl, rfl⟩

theorem keyEvent_press_text (K : Keyboard) (st : Style) (tb : TextBox) (key : Int)
    (hk : key ≠ K.KEY_DELETE) (r : Bool × TextBox)
    (hr : keyEvent K st tb .KEY_PRESS key = .ok r) : r.2._text = tb._text := by
  simp only [keyEvent, if_neg hk] at hr
  split_ifs at hr
  all_goals first
    | (injection hr with hr; subst hr; rfl)
    | (split at hr
       · exact absurd hr (by simp)
       · rename_i tb1 heq
         injection hr with hr
         subst hr
         first
           | exact (keyLeftArrow_frame st tb tb1 heq).1
           | exact (keyRightArrow_frame st tb tb1 heq).1)

theorem keyEvent_release_text (K : Keyboard) (st : Style) (tb : TextBox) (key : Int)
    (r : Bool × TextBox) (hr : keyEvent K st tb .KEY_RELEASE key = .ok r) :
    r.2._text = tb._text := by
  simp only [keyEvent] at hr
  split_ifs at hr <;> (injection hr with hr; subst hr; rfl)

theorem keyEvent_press_delete (K : Keyboard) (st : Style) (tb : TextBox) :
    keyEvent K st tb .KEY_PRESS K.KEY_DELETE =
      match keyDelete st tb with
      | .error f => .error f
      | .ok tb1 => .ok (recordKey tb1 K.KEY_DELETE) := by
  have hn := K.press_labels
  simp only [List.nodup_cons, List.mem_cons, List.mem_singleton, not_or] at hn
  have h1 : ¬ K.KEY_DELETE = K.KEY_CTRL := fun h => hn.1.2.2.1 h.symm
  have h2 : ¬ K.KEY_DELETE = K.KEY_HOME := fun h => hn.2.1.2.1 h.symm
  have h3 : ¬ K.KEY_DELETE = K.KEY_END := fun h => hn.2.2.1.1 h.symm
  simp only [keyEvent, if_neg h1, if_neg h2, if_neg h3, if_true]

theorem keyEvent_char_backspace (K : Keyboard) (st : Style) (tb : TextBox) :
    keyEvent K st tb .KEY_CHAR K.KEY_BACKSPACE =
      match charBackspace st (afterResolve st tb) (resolveCharIndex st tb).1 with
      | .error f => .error f
      | .ok tb1 =>
        .ok (recordKey
          { tb1 with notified := tb1.notified ++ [ListenerEvent.TEXT_CHANGED] }
          K.KEY_BACKSPACE) := by
  simp only [keyEvent, if_true]
  have hc : charBackspace st { tb with _caretLocation := (resolveCharIndex st tb).2 }
      (resolveCharIndex st tb).1 =
      charBackspace st (afterResolve st tb) (resolveCharIndex st tb).1 := rfl
  rw [hc]
  cases charBackspace st (afterResolve st tb) (resolveCharIndex st tb).1 <;> rfl

theorem keyEvent_char_other_text (K : Keyboard) (st : Style) (tb : TextBox) (key : Int)
    (h1 : key ≠ K.KEY_BACKSPACE) (h2 : ¬ IsInsertKey K key) (r : Bool × TextBox)
    (hr : keyEvent K st tb .KEY_CHAR key = .ok r) : r.2._text = tb._text := by
  simp only [keyEvent, if_neg h1] at hr
  split_ifs at hr with h3 h4 h5
  · injection hr with hr; subst hr; rfl
  · injection hr with hr; subst hr; rfl
  · injection hr with hr; subst hr; rfl
  · exact absurd ⟨h1, h3, h4, h5⟩ h2

/-- One returning key event on a control whose caret the font resolves inside
`[0, length]` changes the length of the buffer by one for a kept insertion, by
minus one for a removal, and not at all otherwise. -/
theorem keyEvent_length (K : Keyboard) (st : Style) (tb : TextBox) (evt : KeyEvent) (key : Int)
    (h : ResolvedInRange K st (tb, evt, key)) (r : Bool × TextBox)
    (hr : keyEvent K st tb evt key = .ok r) :
    r.2._text.length + (removal K st (tb, evt, key)).toNat =
      tb._text.length + (keptInsertion K st (tb, evt, key)).toNat := by
  cases evt with
  | KEY_PRESS =>
    have hk : keptInsertion K st (tb, KeyEvent.KEY_PRESS, key) = false := by
      simp [keptInsertion]
    rw [hk]
    by_cases hd : key = K.KEY_DELETE
    · subst hd
      have hrange : 0 ≤ fontIndex st tb ∧ fontIndex st tb ≤ (tb._text.length : Int) :=
        h (Or.inl rfl)
      obtain ⟨i, hi⟩ := Int.eq_ofNat_of_zero_le hrange.1
      have hlen : i ≤ tb._text.length := by have := hrange.2; omega
      obtain ⟨tb1, h1, h2, -⟩ := keyDelete_at st tb i hi hlen
      rw [keyEvent_press_delete, h1] at hr
      injection hr with hr
      subst hr
      have hrem : removal K st (tb, KeyEvent.KEY_PRESS, K.KEY_DELETE) =
          decide (i < tb._text.length) := by
        simp [removal, hi]
      rw [hrem]
      show tb1._text.length + _ = _
      rw [h2, length_erase_at _ _ hlen]
      rfl
    · have hrem : removal K st (tb, KeyEvent.KEY_PRESS, key) = false := by
        simp [removal, hd]
      rw [hrem, keyEvent_press_text K st tb key hd r hr]
  | KEY_RELEASE =>
    have hk : keptInsertion K st (tb, KeyEvent.KEY_RELEASE, key) = false := by
      simp [keptInsertion]
    have hrem : removal K st (tb, KeyEvent.KEY_RELEASE, key) = false := by
      simp [removal]
    rw [hk, hrem, keyEvent_release_text K st tb key r hr]
  | KEY_CHAR =>
    have hrange : 0 ≤ (resolveCharIndex st tb).1 ∧
        (resolveCharIndex st tb).1 ≤ (tb._text.length : Int) := h
    obtain ⟨i, hres⟩ := Int.eq_ofNat_of_zero_le hrange.1
    have hlen : i ≤ tb._text.length := by have := hrange.2; omega
    by_cases hb : key = K.KEY_BACKSPACE
    · subst hb
      have hk : keptInsertion K st (tb, KeyEvent.KEY_CHAR, K.KEY_BACKSPACE) = false := by
        simp [keptInsertion, IsInsertKey]
      have hrem : removal K st (tb, KeyEvent.KEY_CHAR, K.KEY_BACKSPACE) = decide (0 < i) := by
        simp [removal, hres]
      obtain ⟨tb1, h1, h2, -⟩ := charBackspace_at st (afterResolve st tb) i hlen
      rw [keyEvent_char_backspace, hres, h1] at hr
      injection hr with hr
      subst hr
      rw [hk, hrem]
      show tb1._text.length + _ = _
      rw [h2]
      by_cases h0 : 0 < i
      · have h3 := length_erase_at tb._text (i - 1) (by omega)
        have h4 : i - 1 + 1 = i := by omega
        have h5 : i - 1 < tb._text.length := by omega
        rw [h4] at h3
        simp only [h5, decide_True, Bool.toNat_true] at h3
        simp only [h0, if_true, decide_True, Bool.toNat_true, Bool.toNat_false]
        exact h3
      · simp only [h0, if_false, decide_False, Bool.toNat_false]
        rfl
    · have hrem : removal K st (tb, KeyEvent.KEY_CHAR, key) = false := by
        simp [removal, hb]
      rw [hrem]
      by_cases hins : IsInsertKey K key
      · rw [keyEvent_char_default K st tb key hins, hres,
          charInsert_at st (afterResolve st tb) i key hlen] at hr
        injection hr with hr
        subst hr
        have hk : keptInsertion K st (tb, KeyEvent.KEY_CHAR, key) =
            (!spaceRejected st (afterResolve st tb) i key &&
              !measureRejected st (afterResolve st tb) i key) := by
          simp [keptInsertion, hins, hres]
        rw [hk]
        by_cases hrej : spaceRejected st (afterResolve st tb) i key = true ∨
            measureRejected st (afterResolve st tb) i key = true
        · rw [if_pos hrej]
          have : (!spaceRejected st (afterResolve st tb) i key &&
              !measureRejected st (afterResolve st tb) i key) = false := by
            rcases hrej with h1 | h1 <;> simp [h1]
          rw [this]
          rfl
        · rw [if_neg hrej]
          have : (!spaceRejected st (afterResolve st tb) i key &&
              !measureRejected st (afterResolve st tb) i key) = true := by
            simp only [not_or, Bool.not_eq_true] at hrej
            simp [hrej.1, hrej.2]
          rw [this]
          show (tb._text.take i ++ toChar key :: tb._text.drop i).length + 0 = _
          rw [length_insert_at]
          rfl
      · have hk : keptInsertion K st (tb, KeyEvent.KEY_CHAR, key) = false := by
          simp [keptInsertion, hins]
        rw [hk, keyEvent_char_other_text K st tb key hb hins r hr]

/-! ## Word navigation -/

/-- The position found by `findIdx`: either no element satisfies `p`, or the
list splits at the first element that does. -/
theorem findIdx_split (p : Char → Bool) (r : List Char) :
    (r.findIdx p = r.length ∧ ∀ x ∈ r, p x = false) ∨
      ∃ a w b, r = a ++ w :: b ∧ (∀ x ∈ a, p x = false) ∧ p w = true ∧
        r.findIdx p = a.length := by
  induction r with
  | nil => exact Or.inl ⟨rfl, fun x hx => absurd hx (List.not_mem_nil x)⟩
  | cons y ys ih =>
    by_cases hy : p y = true
    · refine Or.inr ⟨[], y, ys, rfl, fun x hx => absurd hx (List.not_mem_nil x), hy, ?_⟩
      simp [List.findIdx_cons, hy]
    · have hy' : p y = false := by simpa using hy
      rcases ih with ⟨h1, h2⟩ | ⟨a, w, b, h1, h2, h3, h4⟩
      · refine Or.inl ⟨by simp [List.findIdx_cons, hy', h1], ?_⟩
        intro x hx
        rcases List.mem_cons.mp hx with h | h
        · rw [h]; exact hy'
        · exact h2 x h
      · refine Or.inr ⟨y :: a, w, b, by rw [h1]; rfl, ?_, h3, by
          simp [List.findIdx_cons, hy', h4]⟩
        intro x hx
        rcases List.mem_cons.mp hx with h | h
        · rw [h]; exact hy'
        · exact h2 x h

/-- The index computed by a Left-arrow press with the modifier held, for an
index `i` with `1 ≤ i ≤ size + 1`: the position just after the last
whitespace among the first `i - 1` characters, or 0 when there is none. -/
theorem wordLeftIndex_spec (text : List Char) (i : Nat) (h1 : 1 ≤ i)
    (h2 : i ≤ text.length + 1) :
    ∃ k : Nat, wordLeftIndex text (i : Int) = .ok (k : Int) ∧
      ((k = 0 ∧ ∀ c ∈ text.take (i - 1), isspace c = false) ∨
        ∃ pre w post, text.take (i - 1) = pre ++ w :: post ∧ isspace w = true ∧
          (∀ c ∈ post, isspace c = false) ∧ k = pre.length + 1) := by
  have hn : ¬ ((i : Int) - 1 < 0 ∨ (text.length : Int) < (i : Int) - 1) := by omega
  have hn2 : ((i : Int) - 1).toNat = i - 1 := by omega
  have hdrop : text.reverse.drop (text.length - (i - 1)) = (text.take (i - 1)).reverse := by
    rw [List.drop_reverse]
    congr 2
    omega
  have hlt : (text.take (i - 1)).length = i - 1 := by
    rw [List.length_take]; omega
  unfold wordLeftIndex
  simp only [if_neg hn, hn2, find_if, hdrop]
  rcases findIdx_split space (text.take (i - 1)).reverse with ⟨e1, e2⟩ | ⟨a, w, b, e1, e2, e3, e4⟩
  · refine ⟨0, ?_, Or.inl ⟨rfl, fun c hc => e2 c (List.mem_reverse.mpr hc)⟩⟩
    rw [e1, List.length_reverse, hlt]
    congr 1
    omega
  · have hrev : text.take (i - 1) = b.reverse ++ w :: a.reverse := by
      have := congrArg List.reverse e1
      rw [List.reverse_reverse] at this
      rw [this]
      simp
    have hlen : a.length + 1 + b.length = i - 1 := by
      rw [← hlt, hrev]
      simp
      omega
    refine ⟨b.length + 1, ?_, Or.inr ⟨b.reverse, w, a.reverse, hrev, e3,
      fun c hc => e2 c (List.mem_reverse.mp hc), by rw [List.length_reverse]⟩⟩
    rw [e4]
    congr 1
    omega

theorem length_getDisplayedText (tb : TextBox) :
    (getDisplayedText tb).length = tb._text.length := by
  unfold getDisplayedText
  cases tb._inputMode
  · rfl
  · exact List.length_replicate _ _

theorem keyEvent_press_left (K : Keyboard) (st : Style) (tb : TextBox) :
    keyEvent K st tb .KEY_PRESS K.KEY_LEFT_ARROW =
      match keyLeftArrow st tb with
      | .error f => .error f
      | .ok tb1 => .ok (recordKey tb1 K.KEY_LEFT_ARROW) := by
  have h1 : ¬ K.KEY_LEFT_ARROW = K.KEY_CTRL := by
    intro h; have hn := K.press_labels; rw [h] at hn; simp at hn
  have h2 : ¬ K.KEY_LEFT_ARROW = K.KEY_HOME := by
    intro h; have hn := K.press_labels; rw [h] at hn; simp at hn
  have h3 : ¬ K.KEY_LEFT_ARROW = K.KEY_END := by
    intro h; have hn := K.press_labels; rw [h] at hn; simp at hn
  have h4 : ¬ K.KEY_LEFT_ARROW = K.KEY_DELETE := by
    intro h; have hn := K.press_labels; rw [h] at hn; simp at hn
  have h5 : ¬ K.KEY_LEFT_ARROW = K.KEY_TAB := by
    intro h; have hn := K.press_labels; rw [h] at hn; simp at hn
  simp only [keyEvent, if_neg h1, if_neg h2, if_neg h3, if_neg h4, if_neg h5, if_true]

theorem keyEvent_press_right (K : Keyboard) (st : Style) (tb : TextBox) :
    keyEvent K st tb .KEY_PRESS K.KEY_RIGHT_ARROW =
      match keyRightArrow st tb with
      | .error f => .error f
      | .ok tb1 => .ok (recordKey tb1 K.KEY_RIGHT_ARROW) := by
  have h1 : ¬ K.KEY_RIGHT_ARROW = K.KEY_CTRL := by
    intro h; have hn := K.press_labels; rw [h] at hn; simp at hn
  have h2 : ¬ K.KEY_RIGHT_ARROW = K.KEY_HOME := by
    intro h; have hn := K.press_labels; rw [h] at hn; simp at hn
  have h3 : ¬ K.KEY_RIGHT_ARROW = K.KEY_END := by
    intro h; have hn := K.press_labels; rw [h] at hn; simp at hn
  have h4 : ¬ K.KEY_RIGHT_ARROW = K.KEY_DELETE := by
    intro h; have hn := K.press_labels; rw [h] at hn; simp at hn
  have h5 : ¬ K.KEY_RIGHT_ARROW = K.KEY_TAB := by
    intro h; have hn := K.press_labels; rw [h] at hn; simp at hn
  have h6 : ¬ K.KEY_RIGHT_ARROW = K.KEY_LEFT_ARROW := by
    intro h; have hn := K.press_labels; rw [h] at hn; simp at hn
  simp only [keyEvent, if_neg h1, if_neg h2, if_neg h3, if_neg h4, if_neg h5, if_neg h6,
    if_true]

/-- The result of the Left-arrow case, given the font index and the new index. -/
theorem keyLeftArrow_eq (st : Style) (tb : TextBox) (k : Int)
    (hk : leftArrowIndex tb._ctrlPressed (getDisplayedText tb) (fontIndex st tb) = .ok k) :
    keyLeftArrow st tb =
      .ok { tb with
        _caretLocation := locationAtIndex st tb (getDisplayedText tb)
          (indexAtLocation st tb (getDisplayedText tb) tb._caretLocation).2 k
        _dirty := true } := by
  unfold keyLeftArrow
  unfold fontIndex at hk
  simp only [hk]

/-- The result of the Right-arrow case, given the font index and the new index. -/
theorem keyRightArrow_eq (st : Style) (tb : TextBox) (k : Int)
    (hk : rightArrowIndex tb._ctrlPressed (getDisplayedText tb) (fontIndex st tb) = .ok k) :
    keyRightArrow st tb =
      .ok { tb with
        _caretLocation := locationAtIndex st tb (getDisplayedText tb)
          (indexAtLocation st tb (getDisplayedText tb) tb._caretLocation).2 k
        _dirty := true } := by
  unfold keyRightArrow
  unfold fontIndex at hk
  simp only [hk]

/-- A key event returns when the font resolves the caret inside `[0, length]`
and the event is not a word jump off the end of the string. -/
theorem keyEvent_returns (K : Keyboard) (st : Style) (tb : TextBox) (evt : KeyEvent) (key : Int)
    (h : ResolvedInRange K st (tb, evt, key))
    (hw : wordJumpUndefined K st (tb, evt, key) = false) :
    ∃ r, keyEvent K st tb evt key = .ok r := by
  cases evt with
  | KEY_RELEASE =>
    simp only [keyEvent]
    split_ifs <;> exact ⟨_, rfl⟩
  | KEY_CHAR =>
    have hrange : 0 ≤ (resolveCharIndex st tb).1 ∧
        (resolveCharIndex st tb).1 ≤ (tb._text.length : Int) := h
    obtain ⟨i, hres⟩ := Int.eq_ofNat_of_zero_le hrange.1
    have hlen : i ≤ tb._text.length := by have := hrange.2; omega
    by_cases hb : key = K.KEY_BACKSPACE
    · subst hb
      obtain ⟨tb1, h1, -⟩ := charBackspace_at st (afterResolve st tb) i hlen
      rw [keyEvent_char_backspace, hres, h1]
      exact ⟨_, rfl⟩
    · by_cases hins : IsInsertKey K key
      · rw [keyEvent_char_default K st tb key hins, hres,
          charInsert_at st (afterResolve st tb) i key hlen]
        exact ⟨_, rfl⟩
      · simp only [keyEvent, if_neg hb]
        split_ifs with h3 h4 h5
        · exact ⟨_, rfl⟩
        · exact ⟨_, rfl⟩
        · exact ⟨_, rfl⟩
        · exact absurd ⟨hb, h3, h4, h5⟩ hins
  | KEY_PRESS =>
    have hrange : (key = K.KEY_DELETE ∨ key = K.KEY_LEFT_ARROW ∨ key = K.KEY_RIGHT_ARROW) →
        0 ≤ fontIndex st tb ∧ fontIndex st tb ≤ (tb._text.length : Int) := h
    by_cases hd : key = K.KEY_DELETE
    · subst hd
      obtain ⟨i, hi⟩ := Int.eq_ofNat_of_zero_le (hrange (Or.inl rfl)).1
      have hlen : i ≤ tb._text.length := by have := (hrange (Or.inl rfl)).2; omega
      obtain ⟨tb1, h1, -⟩ := keyDelete_at st tb i hi hlen
      rw [keyEvent_press_delete, h1]
      exact ⟨_, rfl⟩
    · by_cases hl : key = K.KEY_LEFT_ARROW
      · subst hl
        obtain ⟨i, hi⟩ := Int.eq_ofNat_of_zero_le (hrange (Or.inr (Or.inl rfl))).1
        have hlen : i ≤ tb._text.length := by
          have := (hrange (Or.inr (Or.inl rfl))).2; omega
        have hk : ∃ k, leftArrowIndex tb._ctrlPressed (getDisplayedText tb) (fontIndex st tb) =
            .ok k := by
          unfold leftArrowIndex
          by_cases hc : tb._ctrlPressed = true
          · have h0 : i ≠ 0 := by
              intro h0
              simp [wordJumpUndefined, hc, hi, h0] at hw
            obtain ⟨k, hk, -⟩ := wordLeftIndex_spec (getDisplayedText tb) i (by omega)
              (by rw [length_getDisplayedText]; omega)
            rw [if_pos hc, hi]
            exact ⟨_, hk⟩
          · rw [if_neg hc]
            exact ⟨_, rfl⟩
        obtain ⟨k, hk⟩ := hk
        rw [keyEvent_press_left, keyLeftArrow_eq st tb k hk]
        exact ⟨_, rfl⟩
      · by_cases hr : key = K.KEY_RIGHT_ARROW
        · subst hr
          obtain ⟨i, hi⟩ := Int.eq_ofNat_of_zero_le (hrange (Or.inr (Or.inr rfl))).1
          have hlen : i ≤ tb._text.length := by
            have := (hrange (Or.inr (Or.inr rfl))).2; omega
          have hk : ∃ k, rightArrowIndex tb._ctrlPressed (getDisplayedText tb)
              (fontIndex st tb) = .ok k := by
            unfold rightArrowIndex
            by_cases hc : tb._ctrlPressed = true
            · have h0 : i ≠ tb._text.length := by
                intro h0
                simp [wordJumpUndefined, hc, hi, h0] at hw
              have hn : ¬ ((i : Int) + 1 < 0 ∨
                  ((getDisplayedText tb).length : Int) < (i : Int) + 1) := by
                rw [length_getDisplayedText]; omega
              rw [if_pos hc, hi]
              unfold wordRightIndex
              simp only [if_neg hn]
              exact ⟨_, rfl⟩
            · rw [if_neg hc]
              exact ⟨_, rfl⟩
          obtain ⟨k, hk⟩ := hk
          rw [keyEvent_press_right, keyRightArrow_eq st tb k hk]
          exact ⟨_, rfl⟩
        · simp only [keyEvent, if_neg hd, if_neg hl, if_neg hr]
          split_ifs <;> exact ⟨_, rfl⟩

/-! ## What one key event leaves alone -/

theorem keyDelete_frame (st : Style) (tb tb1 : TextBox) (h : keyDelete st tb = .ok tb1) :
    tb1._consumeInputEvents = tb._consumeInputEvents := by
  unfold keyDelete at h
  simp only [] at h
  split at h
  · exact absurd h (by simp)
  · injection h with h
    subst h
    rfl

theorem charBackspace_frame (st : Style) (tb tb1 : TextBox) (textIndex : Int)
    (h : charBackspace st tb textIndex = .ok tb1) :
    tb1._consumeInputEvents = tb._consumeInputEvents := by
  unfold charBackspace at h
  split_ifs at h
  · split at h
    · exact absurd h (by simp)
    · injection h with h
      subst h
      rfl
  · injection h with h
    subst h
    rfl

theorem undoInsert_frame (st : Style) (tb tb1 : TextBox) (textIndex : Int)
    (h : undoInsert st tb textIndex = .ok tb1) :
    tb1._consumeInputEvents = tb._consumeInputEvents := by
  unfold undoInsert at h
  split at h
  · exact absurd h (by simp)
  · injection h with h
    subst h
    rfl

theorem charInsert_frame (st : Style) (tb tb1 : TextBox) (textIndex key : Int)
    (h : charInsert st tb textIndex key = .ok tb1) :
    tb1._consumeInputEvents = tb._consumeInputEvents := by
  unfold charInsert at h
  split at h
  · exact absurd h (by simp)
  · simp only [] at h
    split_ifs at h
    · have hf := undoInsert_frame st _ tb1 textIndex h
      exact hf
    · have hf := undoInsert_frame st _ tb1 textIndex h
      exact hf
    · injection h with h
      subst h
      rfl

theorem press_labels_ne_tab (K : Keyboard) :
    K.KEY_CTRL ≠ K.KEY_TAB ∧ K.KEY_HOME ≠ K.KEY_TAB ∧ K.KEY_END ≠ K.KEY_TAB ∧
      K.KEY_DELETE ≠ K.KEY_TAB := by
  refine ⟨?_, ?_, ?_, ?_⟩ <;>
    (intro h; have hn := K.press_labels; rw [h] at hn; simp at hn)

theorem char_labels_ne_tab (K : Keyboard) :
    K.KEY_BACKSPACE ≠ K.KEY_TAB ∧ K.KEY_RETURN ≠ K.KEY_TAB ∧ K.KEY_ESCAPE ≠ K.KEY_TAB := by
  refine ⟨?_, ?_, ?_⟩ <;>
    (intro h; have hn := K.char_labels; rw [h] at hn; simp at hn)

theorem keyEvent_press_cases (K : Keyboard) (st : Style) (tb : TextBox) (key : Int)
    (r : Bool × TextBox) (h : keyEvent K st tb .KEY_PRESS key = .ok r) :
    (key = K.KEY_TAB ∧ r.1 = false ∧
        r.2._lastKeypress = tb._lastKeypress ∧ r.2._text = tb._text) ∨
      (key ≠ K.KEY_TAB ∧ r.1 = tb._consumeInputEvents ∧ r.2._lastKeypress = key) := by
  obtain ⟨p1, p2, p3, p4⟩ := press_labels_ne_tab K
  simp only [keyEvent] at h
  split_ifs at h with h1 h2 h3 h4 h5 h6 h7
  · injection h with h; subst h
    exact Or.inr ⟨fun hh => p1 (h1.symm.trans hh), rfl, rfl⟩
  · injection h with h; subst h
    exact Or.inr ⟨fun hh => p2 (h2.symm.trans hh), rfl, rfl⟩
  · injection h with h; subst h
    exact Or.inr ⟨fun hh => p3 (h3.symm.trans hh), rfl, rfl⟩
  · split at h
    · exact absurd h (by simp)
    · rename_i tb1 heq
      injection h with h; subst h
      exact Or.inr ⟨fun hh => p4 (h4.symm.trans hh), keyDelete_frame st tb tb1 heq, rfl⟩
  · injection h with h; subst h
    exact Or.inl ⟨h5, rfl, rfl, rfl⟩
  · split at h
    · exact absurd h (by simp)
    · rename_i tb1 heq
      injection h with h; subst h
      exact Or.inr ⟨h5, (keyLeftArrow_frame st tb tb1 heq).2, rfl⟩
  · split at h
    · exact absurd h (by simp)
    · rename_i tb1 heq
      injection h with h; subst h
      exact Or.inr ⟨h5, (keyRightArrow_frame st tb tb1 heq).2, rfl⟩
  · injection h with h; subst h
    exact Or.inr ⟨h5, rfl, rfl⟩
  · injection h with h; subst h
    exact Or.inr ⟨h5, rfl, rfl⟩
  · injection h with h; subst h
    exact Or.inr ⟨h5, rfl, rfl⟩

theorem keyEvent_char_cases (K : Keyboard) (st : Style) (tb : TextBox) (key : Int)
    (r : Bool × TextBox) (h : keyEvent K st tb .KEY_CHAR key = .ok r) :
    (key = K.KEY_TAB ∧ r.1 = false ∧
        r.2._lastKeypress = tb._lastKeypress ∧ r.2._text = tb._text) ∨
      (key ≠ K.KEY_TAB ∧ r.1 = tb._consumeInputEvents ∧ r.2._lastKeypress = key) := by
  obtain ⟨c1, c2, c3⟩ := char_labels_ne_tab K
  by_cases hb : key = K.KEY_BACKSPACE
  · subst hb
    rw [keyEvent_char_backspace] at h
    split at h
    · exact absurd h (by simp)
    · rename_i tb1 heq
      injection h with h; subst h
      have hf := charBackspace_frame st _ tb1 _ heq
      exact Or.inr ⟨c1, hf, rfl⟩
  · by_cases hins : IsInsertKey K key
    · rw [keyEvent_char_default K st tb key hins] at h
      split at h
      · exact absurd h (by simp)
      · rename_i tb1 heq
        injection h with h; subst h
        have hf := charInsert_frame st _ tb1 _ _ heq
        exact Or.inr ⟨hins.2.2.2, hf, rfl⟩
    · simp only [keyEvent, if_neg hb] at h
      split_ifs at h with h3 h4 h5
      · injection h with h; subst h
        exact Or.inr ⟨fun hh => c2 (h3.symm.trans hh), rfl, rfl⟩
      · injection h with h; subst h
        exact Or.inr ⟨fun hh => c3 (h4.symm.trans hh), rfl, rfl⟩
      · injection h with h; subst h
        exact Or.inl ⟨h5, rfl, rfl, rfl⟩
      · exact absurd ⟨hb, h3, h4, h5⟩ hins

theorem keyEvent_release_cases (K : Keyboard) (st : Style) (tb : TextBox) (key : Int)
    (r : Bool × TextBox) (h : keyEvent K st tb .KEY_RELEASE key = .ok r) :
    r.1 = tb._consumeInputEvents ∧ r.2._lastKeypress = key := by
  simp only [keyEvent] at h
  split_ifs at h <;> (injection h with h; subst h; exact ⟨rfl, rfl⟩)

/-- The two ways in which `keyEvent` returns: through `return false` of the Tab
cases, with the buffer and the recorded key as they were, or through the end
of the function, which records the key and returns the consume flag. -/
theorem keyEvent_ok_cases (K : Keyboard) (st : Style) (tb : TextBox) (evt : KeyEvent) (key : Int)
    (r : Bool × TextBox) (h : keyEvent K st tb evt key = .ok r) :
    (key = K.KEY_TAB ∧ evt ≠ .KEY_RELEASE ∧ r.1 = false ∧
        r.2._lastKeypress = tb._lastKeypress ∧ r.2._text = tb._text) ∨
      (¬ (key = K.KEY_TAB ∧ evt ≠ .KEY_RELEASE) ∧ r.1 = tb._consumeInputEvents ∧
        r.2._lastKeypress = key) := by
  cases evt with
  | KEY_RELEASE =>
    exact Or.inr ⟨fun hh => hh.2 rfl, keyEvent_release_cases K st tb key r h⟩
  | KEY_PRESS =>
    rcases keyEvent_press_cases K st tb key r h with ⟨a, b⟩ | ⟨a, b⟩
    · exact Or.inl ⟨a, KeyEvent.noConfusion, b⟩
    · exact Or.inr ⟨fun hh => a hh.1, b⟩
  | KEY_CHAR =>
    rcases keyEvent_char_cases K st tb key r h with ⟨a, b⟩ | ⟨a, b⟩
    · exact Or.inl ⟨a, KeyEvent.noConfusion, b⟩
    · exact Or.inr ⟨fun hh => a hh.1, b⟩

/-- A Tab key on a `KEY_PRESS` or `KEY_CHAR` event always returns. -/
theorem keyEvent_tab_returns (K : Keyboard) (st : Style) (tb : TextBox) (evt : KeyEvent)
    (hevt : evt ≠ .KEY_RELEASE) : ∃ r, keyEvent K st tb evt K.KEY_TAB = .ok r := by
  obtain ⟨p1, p2, p3, p4⟩ := press_labels_ne_tab K
  obtain ⟨c1, c2, c3⟩ := char_labels_ne_tab K
  cases evt with
  | KEY_RELEASE => exact absurd rfl hevt
  | KEY_PRESS =>
    simp only [keyEvent, if_neg (Ne.symm p1), if_neg (Ne.symm p2), if_neg (Ne.symm p3),
      if_neg (Ne.symm p4), if_true]
    exact ⟨_, rfl⟩
  | KEY_CHAR =>
    simp only [keyEvent, if_neg (Ne.symm c1), if_neg (Ne.symm c2), if_neg (Ne.symm c3),
      if_true]
    exact ⟨_, rfl⟩

/-! ## Character insertion -/

/-- C2: a `KEY_CHAR` event for a printable character `c` that is resolved at
index `i` with `0 ≤ i ≤ length` and passes both containment tests returns,
leaves the buffer equal to the first `i` characters, then `c`, then the
remaining characters, moves the caret to the location of index `i + 1` and
sets the dirty flag. -/
theorem keyChar_inserts_at_index (K : Keyboard) (st : Style) (tb : TextBox) (i : Nat)
    (c : Char) (hc : 32 ≤ c.toNat ∧ c.toNat ≤ 126) (hkey : IsInsertKey K (c.toNat : Int))
    (hidx : (resolveCharIndex st tb).1 = (i : Int)) (hi : i ≤ tb._text.length)
    (hspace : spaceRejected st (afterResolve st tb) i (c.toNat : Int) = false)
    (hmeasure : measureRejected st (afterResolve st tb) i (c.toNat : Int) = false) :
    ∃ tb', keyEvent K st tb .KEY_CHAR (c.toNat : Int) = .ok (tb._consumeInputEvents, tb') ∧
      tb'._text = tb._text.take i ++ c :: tb._text.drop i ∧
      tb'._caretLocation =
        locationAtIndex st tb (getDisplayedText tb') (resolveCharIndex st tb).2 ((i : Int) + 1) ∧
      tb'._dirty = true := by
  rw [keyEvent_char_default K st tb _ hkey, hidx,
    charInsert_at st (afterResolve st tb) i _ hi, hspace, hmeasure]
  have hch : toChar (c.toNat : Int) = c := toChar_toNat c (by omega)
  refine ⟨_, rfl, ?_, ?_, rfl⟩
  · show tb._text.take i ++ toChar (c.toNat : Int) :: tb._text.drop i = _
    rw [hch]
  · rfl

/-- C2, at a concrete input: typing `b` between `a` and `c`. -/
theorem keyChar_inserts_at_index_witness :
    ∃ tb', keyEvent sampleKeys monoStyle (sampleBox "ac".toList 1) .KEY_CHAR 98 =
        .ok (true, tb') ∧
      tb'._text = "abc".toList ∧ tb'._caretLocation = { x := 16, y := 0 } ∧
      tb'._dirty = true := by
  obtain ⟨tb', h1, h2, h3, h4⟩ :=
    keyChar_inserts_at_index sampleKeys monoStyle (sampleBox "ac".toList 1) 1 'b'
      (by decide) (by decide) (by decide) (by decide) (by decide) (by decide)
  refine ⟨tb', h1, h2, ?_, h4⟩
  rw [h3]
  rfl

/-- C3: when the key takes the default case of the `KEY_CHAR` switch, is
resolved at index `i` with `0 ≤ i ≤ length`, and the text measured after the
insertion starts before the origin of the text bounds on either axis or is at
least as wide or as high as the text bounds, the event returns with the buffer
equal to the buffer before the event and the dirty flag as it was. -/
theorem keyChar_overflow_rejected (K : Keyboard) (st : Style) (tb : TextBox) (i : Nat)
    (key : Int) (hkey : IsInsertKey K key)
    (hidx : (resolveCharIndex st tb).1 = (i : Int)) (hi : i ≤ tb._text.length)
    (hover :
      (measureText st tb (getDisplayedText
          { tb with _text := tb._text.take i ++ toChar key :: tb._text.drop i })).x <
          tb._textBounds.x ∨
        (measureText st tb (getDisplayedText
          { tb with _text := tb._text.take i ++ toChar key :: tb._text.drop i })).y <
          tb._textBounds.y ∨
        (measureText st tb (getDisplayedText
          { tb with _text := tb._text.take i ++ toChar key :: tb._text.drop i })).width ≥
          tb._textBounds.width ∨
        (measureText st tb (getDisplayedText
          { tb with _text := tb._text.take i ++ toChar key :: tb._text.drop i })).height ≥
          tb._textBounds.height) :
    ∃ tb', keyEvent K st tb .KEY_CHAR key = .ok (tb._consumeInputEvents, tb') ∧
      tb'._text = tb._text ∧ tb'._dirty = tb._dirty := by
  have hm : measureRejected st (afterResolve st tb) i key = true := by
    show textOverflows tb._textBounds (measureText st tb (getDisplayedText
      { tb with _text := tb._text.take i ++ toChar key :: tb._text.drop i })) = true
    simp only [textOverflows, Bool.or_eq_true, decide_eq_true_eq]
    tauto
  rw [keyEvent_char_default K st tb _ hkey, hidx,
    charInsert_at st (afterResolve st tb) i _ hi, if_pos (Or.inr hm)]
  exact ⟨_, rfl, rfl, rfl⟩

/-- C3, at a concrete input: a 24 pixel wide box holding "ab" rejects `c`,
whose insertion would make the text exactly as wide as the box. -/
theorem keyChar_overflow_rejected_witness :
    ∃ tb', keyEvent sampleKeys monoStyle
        { sampleBox "ab".toList 2 with
          _textBounds := { x := 0, y := 0, width := 24, height := 20 } } .KEY_CHAR 99 =
        .ok (true, tb') ∧
      tb'._text = "ab".toList ∧ tb'._dirty = false :=
  keyChar_overflow_rejected sampleKeys monoStyle
    { sampleBox "ab".toList 2 with
      _textBounds := { x := 0, y := 0, width := 24, height := 20 } } 2 99
    (by decide) (by decide) (by decide) (by decide)

/-! ## Sequences of key events -/

theorem keyEvents_length_of_ok (K : Keyboard) (st : Style) (evs : List (KeyEvent × Int)) :
    ∀ tb tb' : TextBox, (∀ c ∈ keyTrace K st tb evs, ResolvedInRange K st c) →
      keyEvents K st tb evs = .ok tb' →
      tb'._text.length + (keyTrace K st tb evs).countP (removal K st) =
        tb._text.length + (keyTrace K st tb evs).countP (keptInsertion K st) := by
  induction evs with
  | nil =>
    intro tb tb' _ hrun
    simp only [keyEvents] at hrun
    injection hrun with hrun
    subst hrun
    rfl
  | cons e rest ih =>
    intro tb tb' h hrun
    have hhead : ResolvedInRange K st (tb, e.1, e.2) := h (tb, e.1, e.2) (by simp [keyTrace])
    cases hstep : keyEvent K st tb e.1 e.2 with
    | error f => simp [keyEvents, hstep] at hrun
    | ok r =>
      have htrace : keyTrace K st tb (e :: rest) = (tb, e.1, e.2) :: keyTrace K st r.2 rest := by
        simp [keyTrace, hstep]
      have hrun2 : keyEvents K st r.2 rest = .ok tb' := by
        simpa [keyEvents, hstep] using hrun
      have htail := ih r.2 tb'
        (fun c hc => h c (by rw [htrace]; exact List.mem_cons_of_mem _ hc)) hrun2
      have hone := keyEvent_length K st tb e.1 e.2 hhead r hstep
      rw [htrace, List.countP_cons, List.countP_cons]
      cases hr : removal K st (tb, e.1, e.2) <;> cases hk : keptInsertion K st (tb, e.1, e.2) <;>
        simp only [hr, hk, Bool.toNat_true, Bool.toNat_false, if_true, if_false,
          Bool.false_eq_true] at hone ⊢ <;> omega

theorem keyEvents_returns (K : Keyboard) (st : Style) (evs : List (KeyEvent × Int)) :
    ∀ tb : TextBox, (∀ c ∈ keyTrace K st tb evs, ResolvedInRange K st c) →
      (∀ c ∈ keyTrace K st tb evs, wordJumpUndefined K st c = false) →
      ∃ tb', keyEvents K st tb evs = .ok tb' := by
  induction evs with
  | nil => intro tb _ _; exact ⟨tb, rfl⟩
  | cons e rest ih =>
    intro tb h hw
    have hmem : (tb, e.1, e.2) ∈ keyTrace K st tb (e :: rest) := by simp [keyTrace]
    obtain ⟨r, hstep⟩ := keyEvent_returns K st tb e.1 e.2 (h _ hmem) (hw _ hmem)
    have htrace : keyTrace K st tb (e :: rest) = (tb, e.1, e.2) :: keyTrace K st r.2 rest := by
      simp [keyTrace, hstep]
    obtain ⟨tb', hrun⟩ := ih r.2
      (fun c hc => h c (by rw [htrace]; exact List.mem_cons_of_mem _ hc))
      (fun c hc => hw c (by rw [htrace]; exact List.mem_cons_of_mem _ hc))
    exact ⟨tb', by simp [keyEvents, hstep, hrun]⟩

/-- C4: for a sequence of key events on which the font resolves every caret
index inside `[0, length]`, the final length of the buffer plus the number of
Delete and Backspace events that removed a character equals the initial length
plus the number of insertions that were not rolled back; a key event that is
neither changes no length; and the sequence runs to its end unless it holds a
modifier-held Left-arrow press at index 0 or Right-arrow press at index
`length`, where the iterator arithmetic of the handler is undefined. -/
theorem keyEvents_length_accounting (K : Keyboard) (st : Style) (tb : TextBox)
    (evs : List (KeyEvent × Int))
    (h : ∀ c ∈ keyTrace K st tb evs, ResolvedInRange K st c) :
    (∀ tb', keyEvents K st tb evs = .ok tb' →
        tb'._text.length + (keyTrace K st tb evs).countP (removal K st) =
          tb._text.length + (keyTrace K st tb evs).countP (keptInsertion K st)) ∧
      ((∀ c ∈ keyTrace K st tb evs, wordJumpUndefined K st c = false) →
        ∃ tb', keyEvents K st tb evs = .ok tb') ∧
      (∀ c ∈ keyTrace K st tb evs, keptInsertion K st c = false → removal K st c = false →
        ∀ r, keyEvent K st c.1 c.2.1 c.2.2 = .ok r → r.2._text.length = c.1._text.length) := by
  refine ⟨fun tb' hrun => keyEvents_length_of_ok K st evs tb tb' h hrun,
    fun hw => keyEvents_returns K st evs tb h hw, ?_⟩
  intro c hc hk hr r hstep
  have hone := keyEvent_length K st c.1 c.2.1 c.2.2 (h c hc) r hstep
  rw [hk, hr] at hone
  exact hone

set_option maxRecDepth 8000 in
/-- C4, at a concrete input: typing `a` and `b`, then Backspace, Home and
Delete on an empty box: two kept insertions, two removals, final length 0. -/
theorem keyEvents_length_accounting_witness :
    ∃ tb', keyEvents sampleKeys monoStyle (sampleBox [] 0)
        [(.KEY_CHAR, 97), (.KEY_CHAR, 98), (.KEY_CHAR, 8), (.KEY_PRESS, 0xFF50),
          (.KEY_PRESS, 0x7F)] = .ok tb' ∧
      tb'._text.length + 2 = 0 + 2 := by
  have h := keyEvents_length_accounting sampleKeys monoStyle (sampleBox [] 0)
    [(.KEY_CHAR, 97), (.KEY_CHAR, 98), (.KEY_CHAR, 8), (.KEY_PRESS, 0xFF50),
      (.KEY_PRESS, 0x7F)] (by decide)
  obtain ⟨tb', hrun⟩ := h.2.1 (by decide)
  exact ⟨tb', hrun, h.1 tb' hrun⟩

/-- A kept insertion, in full: the result of a `KEY_CHAR` event of the default
case that is resolved at index `i` and passes both containment tests. -/
theorem keyEvent_kept_insertion (K : Keyboard) (st : Style) (tb : TextBox) (key : Int) (i : Nat)
    (hres : (resolveCharIndex st tb).1 = (i : Int)) (hi : i ≤ tb._text.length)
    (hk : keptInsertion K st (tb, KeyEvent.KEY_CHAR, key) = true) :
    keyEvent K st tb .KEY_CHAR key = .ok (tb._consumeInputEvents, keptState st tb i key) := by
  simp only [keptInsertion, hres, Int.toNat_ofNat, Bool.and_eq_true, decide_eq_true_eq,
    Bool.not_eq_true', true_and] at hk
  obtain ⟨⟨hins, hs⟩, hm⟩ := hk
  rw [keyEvent_char_default K st tb key hins, hres,
    charInsert_at st (afterResolve st tb) i key hi, hs, hm]
  rfl

/-- C5 (amended): starting from the empty buffer, three character events for
`a`, `b`, `c`, each resolved at index 0 and each passing the containment
tests, leave the buffer equal to "cba" and the caret at the location of
index 1, the index after the last insertion point. -/
theorem keyChar_abc_at_zero (K : Keyboard) (st : Style) (tb : TextBox) (hempty : tb._text = [])
    (h : ∀ c ∈ keyTrace K st tb [(.KEY_CHAR, 97), (.KEY_CHAR, 98), (.KEY_CHAR, 99)],
      (resolveCharIndex st c.1).1 = 0 ∧ keptInsertion K st c = true) :
    ∃ s2 tb', keyEvents K st tb [(.KEY_CHAR, 97), (.KEY_CHAR, 98)] = .ok s2 ∧
      keyEvents K st tb [(.KEY_CHAR, 97), (.KEY_CHAR, 98), (.KEY_CHAR, 99)] = .ok tb' ∧
      tb'._text = "cba".toList ∧
      tb'._caretLocation =
        locationAtIndex st tb (getDisplayedText tb') (resolveCharIndex st s2).2 1 := by
  have m0 : (tb, KeyEvent.KEY_CHAR, (97 : Int)) ∈
      keyTrace K st tb [(.KEY_CHAR, 97), (.KEY_CHAR, 98), (.KEY_CHAR, 99)] := by
    simp [keyTrace]
  have e0 := keyEvent_kept_insertion K st tb 97 0 (h _ m0).1 (Nat.zero_le _) (h _ m0).2
  have t1 : (keptState st tb 0 97)._text = "a".toList := by
    show tb._text.take 0 ++ toChar 97 :: tb._text.drop 0 = _
    rw [hempty]
    rfl
  have m1 : (keptState st tb 0 97, KeyEvent.KEY_CHAR, (98 : Int)) ∈
      keyTrace K st tb [(.KEY_CHAR, 97), (.KEY_CHAR, 98), (.KEY_CHAR, 99)] := by
    simp [keyTrace, e0]
  have e1 := keyEvent_kept_insertion K st (keptState st tb 0 97) 98 0 (h _ m1).1
    (Nat.zero_le _) (h _ m1).2
  have t2 : (keptState st (keptState st tb 0 97) 0 98)._text = "ba".toList := by
    show (keptState st tb 0 97)._text.take 0 ++
      toChar 98 :: (keptState st tb 0 97)._text.drop 0 = _
    rw [t1]
    rfl
  have m2 : (keptState st (keptState st tb 0 97) 0 98, KeyEvent.KEY_CHAR, (99 : Int)) ∈
      keyTrace K st tb [(.KEY_CHAR, 97), (.KEY_CHAR, 98), (.KEY_CHAR, 99)] := by
    simp [keyTrace, e0, e1]
  have e2 := keyEvent_kept_insertion K st (keptState st (keptState st tb 0 97) 0 98) 99 0
    (h _ m2).1 (Nat.zero_le _) (h _ m2).2
  refine ⟨keptState st (keptState st tb 0 97) 0 98,
    keptState st (keptState st (keptState st tb 0 97) 0 98) 0 99, ?_, ?_, ?_, rfl⟩
  · simp only [keyEvents, e0, e1]
  · simp only [keyEvents, e0, e1, e2]
  · show (keptState st (keptState st tb 0 97) 0 98)._text.take 0 ++
      toChar 99 :: (keptState st (keptState st tb 0 97) 0 98)._text.drop 0 = _
    rw [t2]
    rfl

set_option maxRecDepth 8000 in
/-- C5 (amended), at a concrete input: a font that resolves every point to
index 0. -/
theorem keyChar_abc_at_zero_witness :
    ∃ s2 tb', keyEvents sampleKeys homeStyle (sampleBox [] 0)
        [(.KEY_CHAR, 97), (.KEY_CHAR, 98)] = .ok s2 ∧
      keyEvents sampleKeys homeStyle (sampleBox [] 0)
        [(.KEY_CHAR, 97), (.KEY_CHAR, 98), (.KEY_CHAR, 99)] = .ok tb' ∧
      tb'._text = "cba".toList ∧
      tb'._caretLocation =
        locationAtIndex homeStyle (sampleBox [] 0) (getDisplayedText tb')
          (resolveCharIndex homeStyle s2).2 1 :=
  keyChar_abc_at_zero sampleKeys homeStyle (sampleBox [] 0) rfl (by decide)

set_option maxRecDepth 8000 in
/-- C5 as stated fails: with a font that resolves every point to index 0 and
places index `i` at `x = 8 * i`, the three events for `a`, `b`, `c` on the
empty buffer are each resolved at index 0 and each kept, the buffer becomes
"cba", and the caret is at `x = 8`, the location of index 1, while index 3 is
at `x = 24`. -/
theorem keyChar_abc_caret_not_at_three :
    ∃ tb', keyEvents sampleKeys homeStyle (sampleBox [] 0)
        [(.KEY_CHAR, 97), (.KEY_CHAR, 98), (.KEY_CHAR, 99)] = .ok tb' ∧
      (∀ c ∈ keyTrace sampleKeys homeStyle (sampleBox [] 0)
          [(.KEY_CHAR, 97), (.KEY_CHAR, 98), (.KEY_CHAR, 99)],
        (resolveCharIndex homeStyle c.1).1 = 0 ∧ keptInsertion sampleKeys homeStyle c = true) ∧
      tb'._text = "cba".toList ∧
      tb'._caretLocation = { x := 8, y := 0 } ∧
      (∀ cur, locationAtIndex homeStyle tb' (getDisplayedText tb') cur 1 = { x := 8, y := 0 }) ∧
      (∀ cur, locationAtIndex homeStyle tb' (getDisplayedText tb') cur 3 = { x := 24, y := 0 }) ∧
      ∀ cur, tb'._caretLocation ≠ locationAtIndex homeStyle tb' (getDisplayedText tb') cur 3 := by
  refine ⟨_, rfl, ?_, rfl, rfl, fun _ => rfl, fun _ => rfl, ?_⟩
  · decide
  · intro cur
    show ({ x := 8, y := 0 } : Vector2) ≠ { x := 24, y := 0 }
    decide

/-! ## Caret navigation -/

set_option maxRecDepth 8000 in
/-- C6 fails on the code: on the buffer "abc" a Home press places the caret at
index 0; the Left-arrow press that follows (modifier not held) resolves index
0, decrements it to -1 and asks the font for the location of index -1, which
the fixed-pitch font places at `x = -8`, left of index 0 at `x = 0`; without
the modifier the new index for index 0 is -1 on every text. -/
theorem home_then_left_passes_minus_one :
    (∀ text : List Char, leftArrowIndex false text 0 = .ok (-1)) ∧
    ∃ s1 tb', keyEvent sampleKeys monoStyle (sampleBox "abc".toList 2) .KEY_PRESS
        sampleKeys.KEY_HOME = .ok (true, s1) ∧
      s1._ctrlPressed = false ∧ fontIndex monoStyle s1 = 0 ∧
      leftArrowIndex s1._ctrlPressed (getDisplayedText s1) (fontIndex monoStyle s1) = .ok (-1) ∧
      keyEvent sampleKeys monoStyle s1 .KEY_PRESS sampleKeys.KEY_LEFT_ARROW = .ok (true, tb') ∧
      tb'._caretLocation =
        locationAtIndex monoStyle s1 (getDisplayedText s1)
          (indexAtLocation monoStyle s1 (getDisplayedText s1) s1._caretLocation).2 (-1) ∧
      tb'._caretLocation = { x := -8, y := 0 } ∧
      locationAtIndex monoStyle s1 (getDisplayedText s1)
          (indexAtLocation monoStyle s1 (getDisplayedText s1) s1._caretLocation).2 0 =
        { x := 0, y := 0 } := by
  refine ⟨fun _ => rfl, _, _, rfl, rfl, ?_, ?_, rfl, rfl, rfl, rfl⟩
  · decide
  · rfl

/-- C7: with the modifier held, a Left-arrow press with the caret resolved at
index `i`, `1 ≤ i ≤ length`, returns and moves the caret to the location of an
index `k` of the displayed text (the buffer itself in TEXT mode): `k` is the
position just after the last whitespace character among positions
`0 .. i - 2`, or 0 when there is none; on "hello world" with `i = 6` it is 0. -/
theorem ctrlLeft_previous_word (K : Keyboard) (st : Style) (tb : TextBox) (i : Nat)
    (hctrl : tb._ctrlPressed = true) (hidx : fontIndex st tb = (i : Int)) (h1 : 1 ≤ i)
    (h2 : i ≤ tb._text.length) :
    (∃ (k : Nat) (tb' : TextBox),
        keyEvent K st tb .KEY_PRESS K.KEY_LEFT_ARROW = .ok (tb._consumeInputEvents, tb') ∧
        tb'._caretLocation =
          locationAtIndex st tb (getDisplayedText tb)
            (indexAtLocation st tb (getDisplayedText tb) tb._caretLocation).2 (k : Int) ∧
        tb'._text = tb._text ∧
        ((k = 0 ∧ ∀ c ∈ (getDisplayedText tb).take (i - 1), isspace c = false) ∨
          ∃ pre w post, (getDisplayedText tb).take (i - 1) = pre ++ w :: post ∧
            isspace w = true ∧ (∀ c ∈ post, isspace c = false) ∧ k = pre.length + 1)) ∧
      wordLeftIndex "hello world".toList 6 = .ok 0 := by
  refine ⟨?_, rfl⟩
  obtain ⟨k, hk, hspec⟩ := wordLeftIndex_spec (getDisplayedText tb) i h1
    (by rw [length_getDisplayedText]; omega)
  have hl : leftArrowIndex tb._ctrlPressed (getDisplayedText tb) (fontIndex st tb) =
      .ok (k : Int) := by
    unfold leftArrowIndex
    rw [if_pos hctrl, hidx, hk]
  rw [keyEvent_press_left, keyLeftArrow_eq st tb k hl]
  exact ⟨k, _, rfl, rfl, rfl, hspec⟩

set_option maxRecDepth 8000 in
/-- C7, at a concrete input: "hello world" with the caret at index 6; the
caret moves to `x = 0`, the location of index 0. -/
theorem ctrlLeft_previous_word_witness :
    ∃ tb', keyEvent sampleKeys monoStyle
        { sampleBox "hello world".toList 6 with _ctrlPressed := true } .KEY_PRESS
        sampleKeys.KEY_LEFT_ARROW = .ok (true, tb') ∧
      tb'._caretLocation = { x := 0, y := 0 } := by
  obtain ⟨⟨k, tb', hrun, hloc, -, hk⟩, -⟩ :=
    ctrlLeft_previous_word sampleKeys monoStyle
      { sampleBox "hello world".toList 6 with _ctrlPressed := true } 6 rfl (by decide)
      (by decide) (by decide)
  refine ⟨tb', hrun, ?_⟩
  have hk0 : k = 0 := by
    rcases hk with ⟨h0, -⟩ | ⟨pre, w, post, hsplit, hw, -, -⟩
    · exact h0
    · exfalso
      have hmem : w ∈ "hello".toList := by
        have : "hello".toList = pre ++ w :: post := hsplit
        rw [this]
        simp
      have hall : ∀ c ∈ "hello".toList, isspace c = false := by decide
      rw [hall w hmem] at hw
      exact Bool.false_ne_true hw
  rw [hloc, hk0]
  rfl

/-! ## Touch press outside the control -/

/-- C8: whatever the interaction state and the consume flag, a touch press at
a point that fails the bounds test of the clip rectangle returns false, sets
the state to NORMAL, sets the contact index to `INVALID_CONTACT_INDEX`,
requests the keyboard hidden, sets the dirty flag and leaves the buffer and
the caret location as they were. -/
theorem touchPress_outside (INVALID_CONTACT_INDEX : Int) (st : Style) (tb : TextBox)
    (x y : Int) (contactIndex : Nat)
    (hout : ¬ (x > tb._clipBounds.x ∧ x ≤ tb._clipBounds.x + tb._clipBounds.width ∧
      y > tb._clipBounds.y ∧ y ≤ tb._clipBounds.y + tb._clipBounds.height)) :
    (touchEvent INVALID_CONTACT_INDEX st tb .TOUCH_PRESS x y contactIndex).1 = false ∧
      (touchEvent INVALID_CONTACT_INDEX st tb .TOUCH_PRESS x y contactIndex).2._state =
        State.NORMAL ∧
      (touchEvent INVALID_CONTACT_INDEX st tb .TOUCH_PRESS x y contactIndex).2._contactIndex =
        INVALID_CONTACT_INDEX ∧
      (touchEvent INVALID_CONTACT_INDEX st tb .TOUCH_PRESS x y contactIndex).2.keyboardRequests =
        tb.keyboardRequests ++ [false] ∧
      (touchEvent INVALID_CONTACT_INDEX st tb .TOUCH_PRESS x y contactIndex).2._dirty = true ∧
      (touchEvent INVALID_CONTACT_INDEX st tb .TOUCH_PRESS x y contactIndex).2._text = tb._text ∧
      (touchEvent INVALID_CONTACT_INDEX st tb .TOUCH_PRESS x y contactIndex).2._caretLocation =
        tb._caretLocation := by
  have hclip : inClipBounds tb x y = false := by
    apply Bool.eq_false_iff.mpr
    intro hin
    simp only [inClipBounds, Bool.and_eq_true, decide_eq_true_eq] at hin
    exact hout ⟨hin.1.1.1, hin.1.1.2, hin.1.2, hin.2⟩
  simp only [touchEvent, hclip]
  exact ⟨rfl, rfl, rfl, rfl, rfl, rfl, rfl⟩

/-- C8, at a concrete input: a press at `(300, 10)`, right of the `200 x 20`
clip rectangle of a focused box that consumes input events. -/
theorem touchPress_outside_witness :
    (touchEvent (-1) monoStyle (sampleBox "abc".toList 1) .TOUCH_PRESS 300 10 0).1 = false ∧
      (touchEvent (-1) monoStyle (sampleBox "abc".toList 1) .TOUCH_PRESS 300 10 0).2._state =
        State.NORMAL ∧
      (touchEvent (-1) monoStyle (sampleBox "abc".toList 1) .TOUCH_PRESS 300 10
        0).2.keyboardRequests = [false] :=
  have h := touchPress_outside (-1) monoStyle (sampleBox "abc".toList 1) 300 10 0 (by decide)
  ⟨h.1, h.2.1, h.2.2.2.1⟩

/-! ## The recorded key and the returned flag -/

/-- C9 fails on the code for Tab: a `KEY_PRESS` of Tab returns the control
unchanged and a `KEY_CHAR` of Tab returns it with only the caret location
resolved, so in both cases `getLastKeypress` still reports the key recorded
before the event; on a control that recorded key 0, after a press of Tab (key
code 9) `getLastKeypress` is 0. -/
theorem tab_is_not_recorded (K : Keyboard) (st : Style) (tb : TextBox) :
    keyEvent K st tb .KEY_PRESS K.KEY_TAB = .ok (false, tb) ∧
      keyEvent K st tb .KEY_CHAR K.KEY_TAB = .ok (false, afterResolve st tb) ∧
      getLastKeypress (afterResolve st tb) = getLastKeypress tb ∧
      (keyEvent sampleKeys monoStyle (sampleBox "abc".toList 1) .KEY_PRESS 9).map
        (fun r => getLastKeypress r.2) = .ok 0 ∧
      (keyEvent sampleKeys monoStyle (sampleBox "abc".toList 1) .KEY_CHAR 9).map
        (fun r => getLastKeypress r.2) = .ok 0 := by
  obtain ⟨p1, p2, p3, p4⟩ := press_labels_ne_tab K
  obtain ⟨c1, c2, c3⟩ := char_labels_ne_tab K
  refine ⟨?_, ?_, rfl, rfl, rfl⟩
  · simp only [keyEvent, if_neg (Ne.symm p1), if_neg (Ne.symm p2), if_neg (Ne.symm p3),
      if_neg (Ne.symm p4), if_true]
  · simp only [keyEvent, if_neg (Ne.symm c1), if_neg (Ne.symm c2), if_neg (Ne.symm c3),
      if_true]
    rfl

/-- C10: a key event that returns, returns false when the key is Tab on a
`KEY_PRESS` or `KEY_CHAR` event and the consume flag otherwise; a Tab key on
`KEY_PRESS` or `KEY_CHAR` always returns, with the buffer unchanged; and every
key event returns when the font resolves the caret inside `[0, length]` and
the event is not a modifier-held Left-arrow press at index 0 or Right-arrow
press at index `length`. -/
theorem keyEvent_return_value (K : Keyboard) (st : Style) (tb : TextBox) (evt : KeyEvent)
    (key : Int) :
    (∀ r, keyEvent K st tb evt key = .ok r →
        r.1 = (if key = K.KEY_TAB ∧ evt ≠ .KEY_RELEASE then false
          else tb._consumeInputEvents)) ∧
      (key = K.KEY_TAB → evt ≠ .KEY_RELEASE →
        ∃ tb', keyEvent K st tb evt key = .ok (false, tb') ∧ tb'._text = tb._text) ∧
      (ResolvedInRange K st (tb, evt, key) → wordJumpUndefined K st (tb, evt, key) = false →
        ∃ r, keyEvent K st tb evt key = .ok r) := by
  refine ⟨?_, ?_, fun h hw => keyEvent_returns K st tb evt key h hw⟩
  · intro r h
    rcases keyEvent_ok_cases K st tb evt key r h with ⟨a, b, c, -⟩ | ⟨a, b, -⟩
    · rw [if_pos ⟨a, b⟩]; exact c
    · rw [if_neg a]; exact b
  · intro hk hevt
    subst hk
    obtain ⟨r, h⟩ := keyEvent_tab_returns K st tb evt hevt
    rcases keyEvent_ok_cases K st tb evt K.KEY_TAB r h with ⟨-, -, c, -, e⟩ | ⟨a, -⟩
    · refine ⟨r.2, ?_, e⟩
      rw [h, ← c]
    · exact absurd ⟨rfl, hevt⟩ a

set_option maxRecDepth 8000 in
/-- C10, at concrete inputs: a box that consumes input events returns false
for a Tab character event and true for the character `x`. -/
theorem keyEvent_return_value_witness :
    (∃ tb', keyEvent sampleKeys monoStyle (sampleBox "abc".toList 1) .KEY_CHAR 9 =
        .ok (false, tb') ∧ tb'._text = "abc".toList) ∧
      ∃ r, keyEvent sampleKeys monoStyle (sampleBox "abc".toList 1) .KEY_CHAR 120 = .ok r ∧
        r.1 = true := by
  have ht := keyEvent_return_value sampleKeys monoStyle (sampleBox "abc".toList 1) .KEY_CHAR 9
  have hx := keyEvent_return_value sampleKeys monoStyle (sampleBox "abc".toList 1) .KEY_CHAR 120
  obtain ⟨r, hr⟩ := hx.2.2 (by decide) (by decide)
  exact ⟨ht.2.1 rfl (by decide), r, hr, hx.1 r hr⟩

/-! ## Input mode from a configuration token -/

theorem getInputMode_some (s : List Char) :
    getInputMode (some s) =
      if s = "TEXT".toList then (InputMode.TEXT, [])
      else if s = "PASSWORD".toList then (InputMode.PASSWORD, [])
      else (InputMode.TEXT, GP_ERROR [] s) := rfl

theorem getInputMode_unsupported (s : List Char) (h1 : s ≠ "TEXT".toList)
    (h2 : s ≠ "PASSWORD".toList) : getInputMode (some s) = (InputMode.TEXT, [s]) := by
  rw [getInputMode_some, if_neg h1, if_neg h2]
  rfl

/-- C11: `getInputMode` returns PASSWORD exactly for the token "PASSWORD"; it
returns TEXT for "TEXT", for an absent token and for every other string (the
comparison is case-sensitive, "password" gives TEXT); and it reports a
configuration error exactly when the token is present and is neither "TEXT"
nor "PASSWORD". -/
theorem getInputMode_token (token : Option (List Char)) :
    ((getInputMode token).1 = InputMode.PASSWORD ↔ token = some "PASSWORD".toList) ∧
      ((getInputMode token).1 = InputMode.TEXT ↔ token ≠ some "PASSWORD".toList) ∧
      ((getInputMode token).2 ≠ [] ↔
        ∃ s, token = some s ∧ s ≠ "TEXT".toList ∧ s ≠ "PASSWORD".toList) ∧
      getInputMode (some "TEXT".toList) = (InputMode.TEXT, []) ∧
      getInputMode none = (InputMode.TEXT, []) ∧
      (getInputMode (some "password".toList)).1 = InputMode.TEXT ∧
      (getInputMode (some "password".toList)).2 = ["password".toList] := by
  have hne : "TEXT".toList ≠ "PASSWORD".toList := by decide
  refine ⟨?_, ?_, ?_, rfl, rfl, rfl, rfl⟩
  all_goals
    cases token with
    | none =>
      first
        | exact ⟨fun h => InputMode.noConfusion h, fun h => Option.noConfusion h⟩
        | exact ⟨fun _ h => Option.noConfusion h, fun _ => rfl⟩
        | exact ⟨fun h => absurd rfl h, fun ⟨_, h, _⟩ => Option.noConfusion h⟩
    | some s =>
      by_cases h1 : s = "TEXT".toList
      · subst h1
        first
          | exact ⟨fun h => InputMode.noConfusion h, fun h => absurd (Option.some.inj h) hne⟩
          | exact ⟨fun _ h => hne (Option.some.inj h), fun _ => rfl⟩
          | exact ⟨fun h => absurd rfl h, fun ⟨_, h, h3, _⟩ => absurd (Option.some.inj h).symm h3⟩
      · by_cases h2 : s = "PASSWORD".toList
        · subst h2
          first
            | exact ⟨fun _ => rfl, fun _ => rfl⟩
            | exact ⟨fun h => InputMode.noConfusion h, fun h => absurd rfl h⟩
            | exact ⟨fun h => absurd rfl h,
                fun ⟨_, h, _, h4⟩ => absurd (Option.some.inj h).symm h4⟩
        · rw [getInputMode_unsupported s h1 h2]
          first
            | exact ⟨fun h => InputMode.noConfusion h, fun h => absurd (Option.some.inj h) h2⟩
            | exact ⟨fun _ h => h2 (Option.some.inj h), fun _ => rfl⟩
            | exact ⟨fun _ => ⟨s, rfl, h1, h2⟩, fun _ h => List.noConfusion h⟩

/-! ## Delete and Backspace -/

theorem keyDelete_fields (st : Style) (tb : TextBox) (i : Nat)
    (hidx : fontIndex st tb = (i : Int)) (hi : i ≤ tb._text.length) :
    ∃ tb1, keyDelete st tb = .ok tb1 ∧
      tb1._text = tb._text.take i ++ tb._text.drop (i + 1) ∧
      tb1._caretLocation =
        locationAtIndex st tb (getDisplayedText tb1)
          (indexAtLocation st tb (getDisplayedText tb) tb._caretLocation).2 (i : Int) ∧
      tb1._dirty = true ∧
      tb1.notified = tb.notified ++ [ListenerEvent.TEXT_CHANGED] ∧
      tb1._consumeInputEvents = tb._consumeInputEvents := by
  unfold keyDelete
  have h1 : (indexAtLocation st tb (getDisplayedText tb) tb._caretLocation).1 = (i : Int) := hidx
  simp only [h1, erase_at _ _ hi]
  exact ⟨_, rfl, rfl, rfl, rfl, rfl, rfl⟩

theorem charBackspace_fields (st : Style) (tb : TextBox) (i : Nat) (h0 : 0 < i)
    (hi : i ≤ tb._text.length) :
    ∃ tb1, charBackspace st tb (i : Int) = .ok tb1 ∧
      tb1._text = tb._text.take (i - 1) ++ tb._text.drop i ∧
      tb1._caretLocation =
        locationAtIndex st tb (getDisplayedText tb1) tb._caretLocation ((i : Int) - 1) ∧
      tb1._dirty = true ∧ tb1.notified = tb.notified ∧
      tb1._consumeInputEvents = tb._consumeInputEvents := by
  unfold charBackspace
  have h1 : (i : Int) > 0 := by omega
  have h2 : (i : Int) - 1 = ((i - 1 : Nat) : Int) := by omega
  have h3 : i - 1 + 1 = i := by omega
  simp only [if_pos h1, h2, erase_at tb._text (i - 1) (by omega), h3]
  exact ⟨_, rfl, rfl, rfl, rfl, rfl, rfl⟩

/-- C13: a Delete press with the caret resolved at index `i ≤ length` returns,
leaves the buffer equal to the first `i` characters followed by the
characters after position `i` (one character shorter for `i < length`, the
same buffer for `i = length`), moves the caret to the location of index `i`,
sets the dirty flag and notifies TEXT_CHANGED once. -/
theorem delete_removes_at_index (K : Keyboard) (st : Style) (tb : TextBox) (i : Nat)
    (hidx : fontIndex st tb = (i : Int)) (hi : i ≤ tb._text.length) :
    ∃ tb', keyEvent K st tb .KEY_PRESS K.KEY_DELETE = .ok (tb._consumeInputEvents, tb') ∧
      tb'._text = tb._text.take i ++ tb._text.drop (i + 1) ∧
      (i < tb._text.length → tb'._text.length + 1 = tb._text.length) ∧
      (i = tb._text.length → tb'._text = tb._text) ∧
      tb'._caretLocation =
        locationAtIndex st tb (getDisplayedText tb')
          (indexAtLocation st tb (getDisplayedText tb) tb._caretLocation).2 (i : Int) ∧
      tb'._dirty = true ∧
      tb'.notified = tb.notified ++ [ListenerEvent.TEXT_CHANGED] := by
  obtain ⟨tb1, h1, h2, h3, h4, h5, h6⟩ := keyDelete_fields st tb i hidx hi
  rw [keyEvent_press_delete, h1]
  refine ⟨(recordKey tb1 K.KEY_DELETE).2, ?_, h2, ?_, ?_, h3, h4, h5⟩
  · exact congrArg Except.ok
      (Prod.ext (show (recordKey tb1 K.KEY_DELETE).1 = tb._consumeInputEvents from h6) rfl)
  · intro hlt
    show tb1._text.length + 1 = _
    have := length_erase_at tb._text i hi
    rw [h2]
    simp only [hlt, decide_True, Bool.toNat_true] at this
    exact this
  · intro heq
    show tb1._text = _
    rw [h2, heq]
    simp

/-- C13, at a concrete input: Delete with the caret at index 1 of "abc". -/
theorem delete_removes_at_index_witness :
    ∃ tb', keyEvent sampleKeys monoStyle (sampleBox "abc".toList 1) .KEY_PRESS 0x7F =
        .ok (true, tb') ∧
      tb'._text = "ac".toList ∧ tb'._caretLocation = { x := 8, y := 0 } ∧
      tb'._dirty = true ∧ tb'.notified = [ListenerEvent.TEXT_CHANGED] := by
  obtain ⟨tb', h1, h2, -, -, h3, h4, h5⟩ :=
    delete_removes_at_index sampleKeys monoStyle (sampleBox "abc".toList 1) 1 (by decide)
      (by decide)
  refine ⟨tb', h1, h2, ?_, h4, h5⟩
  rw [h3]
  rfl

/-- C15: a Backspace event with the caret resolved at index `i`,
`0 < i ≤ length`, returns, leaves the buffer without the character at position
`i - 1`, moves the caret to the location of index `i - 1` and sets the dirty
flag; with `i = 0` it returns with the buffer and the dirty flag as they
were. -/
theorem backspace_removes_before_index (K : Keyboard) (st : Style) (tb : TextBox) (i : Nat)
    (hidx : (resolveCharIndex st tb).1 = (i : Int)) (hi : i ≤ tb._text.length) :
    ∃ tb', keyEvent K st tb .KEY_CHAR K.KEY_BACKSPACE = .ok (tb._consumeInputEvents, tb') ∧
      (0 < i →
        tb'._text = tb._text.take (i - 1) ++ tb._text.drop i ∧
        tb'._text.length + 1 = tb._text.length ∧
        tb'._caretLocation =
          locationAtIndex st tb (getDisplayedText tb') (resolveCharIndex st tb).2
            ((i : Int) - 1) ∧
        tb'._dirty = true) ∧
      (i = 0 → tb'._text = tb._text ∧ tb'._dirty = tb._dirty) := by
  by_cases h0 : 0 < i
  · obtain ⟨tb1, h1, h2, h3, h4, -, h6⟩ :=
      charBackspace_fields st (afterResolve st tb) i h0 hi
    rw [keyEvent_char_backspace, hidx, h1]
    refine ⟨(recordKey
        { tb1 with notified := tb1.notified ++ [ListenerEvent.TEXT_CHANGED] }
        K.KEY_BACKSPACE).2, ?_, fun _ => ⟨h2, ?_, h3, h4⟩, fun hz => absurd hz (by omega)⟩
    · exact congrArg Except.ok
        (Prod.ext (show tb1._consumeInputEvents = tb._consumeInputEvents from h6) rfl)
    · show tb1._text.length + 1 = _
      have := length_erase_at tb._text (i - 1) (by omega)
      have h7 : i - 1 + 1 = i := by omega
      have h8 : i - 1 < tb._text.length := by omega
      rw [h7] at this
      simp only [h8, decide_True, Bool.toNat_true] at this
      rw [h2]
      exact this
  · have hz : i = 0 := by omega
    subst hz
    have h1 : charBackspace st (afterResolve st tb) ((0 : Nat) : Int) =
        .ok (afterResolve st tb) := by
      unfold charBackspace
      simp
    rw [keyEvent_char_backspace, hidx, h1]
    exact ⟨_, rfl, fun h => absurd h h0, fun _ => ⟨rfl, rfl⟩⟩

/-- C15, at a concrete input: Backspace with the caret at index 2 of "abc". -/
theorem backspace_removes_before_index_witness :
    ∃ tb', keyEvent sampleKeys monoStyle (sampleBox "abc".toList 2) .KEY_CHAR 8 =
        .ok (true, tb') ∧
      tb'._text = "ac".toList ∧ tb'._caretLocation = { x := 8, y := 0 } ∧
      tb'._dirty = true := by
  obtain ⟨tb', h1, h2, -⟩ :=
    backspace_removes_before_index sampleKeys monoStyle (sampleBox "abc".toList 2) 2
      (by decide) (by decide)
  obtain ⟨h3, -, h4, h5⟩ := h2 (by decide)
  refine ⟨tb', h1, h3, ?_, h5⟩
  rw [h4]
  rfl

/-! ## Indices the handlers pass on at the ends of the text and without an index -/

set_option maxRecDepth 8000 in
/-- C12 fails on the code: without the modifier the Right-arrow case passes on
`textIndex + 1` and the Left-arrow case `textIndex - 1` whatever the text; on
"abc" with the caret resolved at index 3, the length, a Right-arrow press
returns with the buffer still of length 3 and the caret at the location of
index 4 (`x = 32`, the end of the text being at `x = 24`); with the modifier
held the same press has no defined result. -/
theorem right_at_end_passes_length_plus_one :
    (∀ (text : List Char) (i : Int), rightArrowIndex false text i = .ok (i + 1)) ∧
      (∀ (text : List Char) (i : Int), leftArrowIndex false text i = .ok (i - 1)) ∧
      fontIndex monoStyle (sampleBox "abc".toList 3) = 3 ∧
      (∃ tb', keyEvent sampleKeys monoStyle (sampleBox "abc".toList 3) .KEY_PRESS
          sampleKeys.KEY_RIGHT_ARROW = .ok (true, tb') ∧
        tb'._text.length = 3 ∧
        tb'._caretLocation =
          locationAtIndex monoStyle (sampleBox "abc".toList 3) "abc".toList
            (indexAtLocation monoStyle (sampleBox "abc".toList 3) "abc".toList
              (sampleBox "abc".toList 3)._caretLocation).2 4 ∧
        tb'._caretLocation = { x := 32, y := 0 } ∧
        locationAtIndex monoStyle (sampleBox "abc".toList 3) "abc".toList
            (indexAtLocation monoStyle (sampleBox "abc".toList 3) "abc".toList
              (sampleBox "abc".toList 3)._caretLocation).2 3 = { x := 24, y := 0 }) ∧
      keyEvent sampleKeys monoStyle { sampleBox "abc".toList 3 with _ctrlPressed := true }
        .KEY_PRESS sampleKeys.KEY_RIGHT_ARROW = .error Fault.undefined_behaviour := by
  refine ⟨fun _ _ => rfl, fun _ _ => rfl, ?_, ⟨_, rfl, rfl, rfl, rfl, rfl⟩, rfl⟩
  decide

set_option maxRecDepth 8000 in
/-- C14 fails on the code for the `KEY_PRESS` cases: on "abc" with the caret at
a point where the font reports no index (-1), a Delete press calls
`erase(-1, 1)`, which throws instead of returning; a Left-arrow press moves
the caret to the location of index -2 (`x = -16`); a Right-arrow press passes
on index 0 without having snapped the caret first.  Only the `KEY_CHAR` case
replaces -1 by 0 and snaps the caret to the location of index 0. -/
theorem press_cases_use_minus_one :
    fontIndex monoStyle (sampleBox "abc".toList 9) = -1 ∧
      (∀ (text : List Char) (n : Nat), erase text (-1) n = .error Fault.out_of_range) ∧
      keyEvent sampleKeys monoStyle (sampleBox "abc".toList 9) .KEY_PRESS
        sampleKeys.KEY_DELETE = .error Fault.out_of_range ∧
      (∃ tb', keyEvent sampleKeys monoStyle (sampleBox "abc".toList 9) .KEY_PRESS
          sampleKeys.KEY_LEFT_ARROW = .ok (true, tb') ∧
        tb'._caretLocation =
          locationAtIndex monoStyle (sampleBox "abc".toList 9) "abc".toList
            (indexAtLocation monoStyle (sampleBox "abc".toList 9) "abc".toList
              (sampleBox "abc".toList 9)._caretLocation).2 (-2) ∧
        tb'._caretLocation = { x := -16, y := 0 }) ∧
      (∃ tb', keyEvent sampleKeys monoStyle (sampleBox "abc".toList 9) .KEY_PRESS
          sampleKeys.KEY_RIGHT_ARROW = .ok (true, tb') ∧
        tb'._caretLocation =
          locationAtIndex monoStyle (sampleBox "abc".toList 9) "abc".toList
            (sampleBox "abc".toList 9)._caretLocation 0) ∧
      resolveCharIndex monoStyle (sampleBox "abc".toList 9) =
        (0, locationAtIndex monoStyle (sampleBox "abc".toList 9) "abc".toList
          (sampleBox "abc".toList 9)._caretLocation 0) ∧
      ∃ tb', keyEvent sampleKeys monoStyle (sampleBox "abc".toList 9) .KEY_CHAR 120 =
          .ok (true, tb') ∧ tb'._text = "xabc".toList := by
  refine ⟨by decide, fun _ _ => rfl, rfl, ⟨_, rfl, rfl, rfl⟩, ⟨_, rfl, rfl⟩, rfl,
    ⟨_, rfl, rfl⟩⟩

/-! ## Touch events and caret placement -/

/-- The method `setCaretLocation` changes the caret location and the saved
previous location only. -/
theorem setCaretLocation_frame (st : Style) (tb : TextBox) (x y : Int) :
    setCaretLocation st tb x y =
      { tb with
        _prevCaretLocation := tb._caretLocation
        _caretLocation := (setCaretLocation st tb x y)._caretLocation } := by
  unfold setCaretLocation
  simp only []
  split_ifs <;> rfl

/-- The bounds test of the touch handler, spelled out. -/
theorem inClipBounds_iff (tb : TextBox) (x y : Int) :
    inClipBounds tb x y = true ↔
      (tb._clipBounds.x < x ∧ x ≤ tb._clipBounds.x + tb._clipBounds.width ∧
        tb._clipBounds.y < y ∧ y ≤ tb._clipBounds.y + tb._clipBounds.height) := by
  simp only [inClipBounds, Bool.and_eq_true, decide_eq_true_eq, gt_iff_lt]
  tauto

theorem touchRelease_state (INVALID_CONTACT_INDEX : Int) (st : Style) (tb : TextBox)
    (x y : Int) (contactIndex : Nat) :
    (inClipBounds tb x y = true →
        (touchEvent INVALID_CONTACT_INDEX st tb .TOUCH_RELEASE x y contactIndex).2._state =
          State.FOCUS) ∧
      (inClipBounds tb x y = false →
        (touchEvent INVALID_CONTACT_INDEX st tb .TOUCH_RELEASE x y contactIndex).2._state =
          State.NORMAL) := by
  constructor
  · intro hin
    simp only [touchEvent, hin, if_true]
  · intro hout
    simp only [touchEvent, hout]
    rfl

theorem setCaretLocation_fields (st : Style) (tb : TextBox) (x y : Int) :
    (setCaretLocation st tb x y)._text = tb._text ∧
      (setCaretLocation st tb x y)._state = tb._state ∧
      (setCaretLocation st tb x y)._dirty = tb._dirty ∧
      (setCaretLocation st tb x y)._contactIndex = tb._contactIndex ∧
      (setCaretLocation st tb x y)._consumeInputEvents = tb._consumeInputEvents ∧
      (setCaretLocation st tb x y).keyboardRequests = tb.keyboardRequests ∧
      (setCaretLocation st tb x y).notified = tb.notified := by
  refine ⟨?_, ?_, ?_, ?_, ?_, ?_, ?_⟩ <;> rw [setCaretLocation_frame]

/-- C16: a touch release returns the consume flag, sets the contact index to
`INVALID_CONTACT_INDEX`, sets the dirty flag and leaves the buffer alone; when
the point passes the bounds test the state becomes FOCUS, the caret is the one
placed by `setCaretLocation` and no keyboard request is made; otherwise the
state becomes NORMAL and the keyboard is requested hidden. -/
theorem touchRelease_effects (INVALID_CONTACT_INDEX : Int) (st : Style) (tb : TextBox)
    (x y : Int) (contactIndex : Nat) :
    (touchEvent INVALID_CONTACT_INDEX st tb .TOUCH_RELEASE x y contactIndex).1 =
        tb._consumeInputEvents ∧
      (touchEvent INVALID_CONTACT_INDEX st tb .TOUCH_RELEASE x y contactIndex).2._contactIndex =
        INVALID_CONTACT_INDEX ∧
      (touchEvent INVALID_CONTACT_INDEX st tb .TOUCH_RELEASE x y contactIndex).2._dirty = true ∧
      (touchEvent INVALID_CONTACT_INDEX st tb .TOUCH_RELEASE x y contactIndex).2._text =
        tb._text ∧
      ((tb._clipBounds.x < x ∧ x ≤ tb._clipBounds.x + tb._clipBounds.width ∧
          tb._clipBounds.y < y ∧ y ≤ tb._clipBounds.y + tb._clipBounds.height) →
        (touchEvent INVALID_CONTACT_INDEX st tb .TOUCH_RELEASE x y contactIndex).2._state =
            State.FOCUS ∧
          (touchEvent INVALID_CONTACT_INDEX st tb .TOUCH_RELEASE x y
            contactIndex).2.keyboardRequests = tb.keyboardRequests ∧
          (touchEvent INVALID_CONTACT_INDEX st tb .TOUCH_RELEASE x y
            contactIndex).2._caretLocation = (setCaretLocation st tb x y)._caretLocation) ∧
      (¬ (tb._clipBounds.x < x ∧ x ≤ tb._clipBounds.x + tb._clipBounds.width ∧
          tb._clipBounds.y < y ∧ y ≤ tb._clipBounds.y + tb._clipBounds.height) →
        (touchEvent INVALID_CONTACT_INDEX st tb .TOUCH_RELEASE x y contactIndex).2._state =
            State.NORMAL ∧
          (touchEvent INVALID_CONTACT_INDEX st tb .TOUCH_RELEASE x y
            contactIndex).2.keyboardRequests = tb.keyboardRequests ++ [false] ∧
          (touchEvent INVALID_CONTACT_INDEX st tb .TOUCH_RELEASE x y
            contactIndex).2._caretLocation = tb._caretLocation) := by
  obtain ⟨f1, -, -, -, f5, f6, -⟩ := setCaretLocation_fields st tb x y
  by_cases hin : inClipBounds tb x y = true
  · have hP := (inClipBounds_iff tb x y).mp hin
    have e : touchEvent INVALID_CONTACT_INDEX st tb .TOUCH_RELEASE x y contactIndex =
        ((setCaretLocation st tb x y)._consumeInputEvents,
          { setCaretLocation st tb x y with
            _state := .FOCUS
            _contactIndex := INVALID_CONTACT_INDEX
            _dirty := true }) := by
      simp only [touchEvent, hin, if_true]
    rw [e]
    exact ⟨f5, rfl, rfl, f1, fun _ => ⟨rfl, f6, rfl⟩, fun h => absurd hP h⟩
  · have hP : ¬ _ := fun h => hin ((inClipBounds_iff tb x y).mpr h)
    have hf : inClipBounds tb x y = false := by simpa using hin
    have e : touchEvent INVALID_CONTACT_INDEX st tb .TOUCH_RELEASE x y contactIndex =
        (tb._consumeInputEvents,
          { tb with
            _state := .NORMAL
            keyboardRequests := tb.keyboardRequests ++ [false]
            _contactIndex := INVALID_CONTACT_INDEX
            _dirty := true }) := by
      simp only [touchEvent, hf]
      rfl
    rw [e]
    exact ⟨rfl, rfl, rfl, rfl, fun h => absurd h hP, fun _ => ⟨rfl, rfl, rfl⟩⟩

/-- C16, at concrete inputs: a release at `(10, 10)`, inside the `200 x 20`
clip rectangle, gives FOCUS; a release at `(300, 10)` gives NORMAL and a
request to hide the keyboard; both return the consume flag. -/
theorem touchRelease_effects_witness :
    (touchEvent (-1) monoStyle (sampleBox "abc".toList 1) .TOUCH_RELEASE 10 10 0).2._state =
        State.FOCUS ∧
      (touchEvent (-1) monoStyle (sampleBox "abc".toList 1) .TOUCH_RELEASE 300 10 0).2._state =
        State.NORMAL ∧
      (touchEvent (-1) monoStyle (sampleBox "abc".toList 1) .TOUCH_RELEASE 300 10
        0).2.keyboardRequests = [false] ∧
      (touchEvent (-1) monoStyle (sampleBox "abc".toList 1) .TOUCH_RELEASE 300 10 0).1 = true :=
  ⟨((touchRelease_effects (-1) monoStyle (sampleBox "abc".toList 1) 10 10 0).2.2.2.2.1
      (by decide)).1,
    ((touchRelease_effects (-1) monoStyle (sampleBox "abc".toList 1) 300 10 0).2.2.2.2.2
      (by decide)).1,
    ((touchRelease_effects (-1) monoStyle (sampleBox "abc".toList 1) 300 10 0).2.2.2.2.2
      (by decide)).2.1,
    (touchRelease_effects (-1) monoStyle (sampleBox "abc".toList 1) 300 10 0).1⟩

/-- C17: a touch move that fails the bounds test, or that arrives in a state
other than ACTIVE, returns the consume flag and leaves the whole control as it
was (buffer, caret, state, contact, dirty flag, keyboard requests); a move
that passes the test in state ACTIVE keeps the state ACTIVE, sets the dirty
flag, places the caret through `setCaretLocation` and leaves the buffer, the
contact and the keyboard requests alone. -/
theorem touchMove_effects (INVALID_CONTACT_INDEX : Int) (st : Style) (tb : TextBox)
    (x y : Int) (contactIndex : Nat) :
    (¬ (tb._state = State.ACTIVE ∧
          tb._clipBounds.x < x ∧ x ≤ tb._clipBounds.x + tb._clipBounds.width ∧
          tb._clipBounds.y < y ∧ y ≤ tb._clipBounds.y + tb._clipBounds.height) →
        touchEvent INVALID_CONTACT_INDEX st tb .TOUCH_MOVE x y contactIndex =
          (tb._consumeInputEvents, tb)) ∧
      ((tb._state = State.ACTIVE ∧
          tb._clipBounds.x < x ∧ x ≤ tb._clipBounds.x + tb._clipBounds.width ∧
          tb._clipBounds.y < y ∧ y ≤ tb._clipBounds.y + tb._clipBounds.height) →
        (touchEvent INVALID_CONTACT_INDEX st tb .TOUCH_MOVE x y contactIndex).1 =
            tb._consumeInputEvents ∧
          (touchEvent INVALID_CONTACT_INDEX st tb .TOUCH_MOVE x y contactIndex).2._state =
            State.ACTIVE ∧
          (touchEvent INVALID_CONTACT_INDEX st tb .TOUCH_MOVE x y contactIndex).2._dirty =
            true ∧
          (touchEvent INVALID_CONTACT_INDEX st tb .TOUCH_MOVE x y
            contactIndex).2._caretLocation = (setCaretLocation st tb x y)._caretLocation ∧
          (touchEvent INVALID_CONTACT_INDEX st tb .TOUCH_MOVE x y contactIndex).2._text =
            tb._text ∧
          (touchEvent INVALID_CONTACT_INDEX st tb .TOUCH_MOVE x y
            contactIndex).2._contactIndex = tb._contactIndex ∧
          (touchEvent INVALID_CONTACT_INDEX st tb .TOUCH_MOVE x y
            contactIndex).2.keyboardRequests = tb.keyboardRequests) := by
  obtain ⟨f1, f2, -, f4, f5, f6, -⟩ := setCaretLocation_fields st tb x y
  constructor
  · intro h
    have hc : ¬ (tb._state = State.ACTIVE ∧ inClipBounds tb x y = true) :=
      fun hh => h ⟨hh.1, (inClipBounds_iff tb x y).mp hh.2⟩
    simp only [touchEvent, if_neg hc]
  · intro h
    have hc : tb._state = State.ACTIVE ∧ inClipBounds tb x y = true :=
      ⟨h.1, (inClipBounds_iff tb x y).mpr h.2⟩
    have e : touchEvent INVALID_CONTACT_INDEX st tb .TOUCH_MOVE x y contactIndex =
        ((setCaretLocation st tb x y)._consumeInputEvents,
          { setCaretLocation st tb x y with _dirty := true }) := by
      simp only [touchEvent, if_pos hc]
    rw [e]
    exact ⟨f5, f2.trans h.1, rfl, rfl, f1, f4, f6⟩

/-- C17, at concrete inputs: on a focused (not ACTIVE) box a move inside the
bounds changes nothing; on an ACTIVE box it sets the dirty flag and keeps the
state. -/
theorem touchMove_effects_witness :
    touchEvent (-1) monoStyle (sampleBox "abc".toList 1) .TOUCH_MOVE 10 10 0 =
        (true, sampleBox "abc".toList 1) ∧
      (touchEvent (-1) monoStyle { sampleBox "abc".toList 1 with _state := .ACTIVE }
        .TOUCH_MOVE 10 10 0).2._state = State.ACTIVE ∧
      (touchEvent (-1) monoStyle { sampleBox "abc".toList 1 with _state := .ACTIVE }
        .TOUCH_MOVE 10 10 0).2._dirty = true :=
  ⟨(touchMove_effects (-1) monoStyle (sampleBox "abc".toList 1) 10 10 0).1 (by decide),
    ((touchMove_effects (-1) monoStyle { sampleBox "abc".toList 1 with _state := .ACTIVE }
      10 10 0).2 (by decide)).2.1,
    ((touchMove_effects (-1) monoStyle { sampleBox "abc".toList 1 with _state := .ACTIVE }
      10 10 0).2 (by decide)).2.2.1⟩

/-- C18: press, move and release take their inside branch exactly when
`left < x ≤ left + width` and `top < y ≤ top + height` for the clip bounds: a
press ends in state ACTIVE when the test holds and in state NORMAL otherwise,
a release in FOCUS or NORMAL, and a move calls `setCaretLocation` exactly when
the state is ACTIVE and the test holds.  A press with `x` equal to the left
edge returns false with state NORMAL; a press with `x` equal to
`left + width` of a rectangle of positive width, `y` in range, ends in state
ACTIVE. -/
theorem touch_bounds_test (INVALID_CONTACT_INDEX : Int) (st : Style) (tb : TextBox)
    (x y : Int) (contactIndex : Nat) :
    (touchEvent INVALID_CONTACT_INDEX st tb .TOUCH_PRESS x y contactIndex).2._state =
        (if tb._clipBounds.x < x ∧ x ≤ tb._clipBounds.x + tb._clipBounds.width ∧
            tb._clipBounds.y < y ∧ y ≤ tb._clipBounds.y + tb._clipBounds.height
          then State.ACTIVE else State.NORMAL) ∧
      (touchEvent INVALID_CONTACT_INDEX st tb .TOUCH_RELEASE x y contactIndex).2._state =
        (if tb._clipBounds.x < x ∧ x ≤ tb._clipBounds.x + tb._clipBounds.width ∧
            tb._clipBounds.y < y ∧ y ≤ tb._clipBounds.y + tb._clipBounds.height
          then State.FOCUS else State.NORMAL) ∧
      touchEvent INVALID_CONTACT_INDEX st tb .TOUCH_MOVE x y contactIndex =
        (if tb._state = State.ACTIVE ∧
            tb._clipBounds.x < x ∧ x ≤ tb._clipBounds.x + tb._clipBounds.width ∧
            tb._clipBounds.y < y ∧ y ≤ tb._clipBounds.y + tb._clipBounds.height
          then (tb._consumeInputEvents, { setCaretLocation st tb x y with _dirty := true })
          else (tb._consumeInputEvents, tb)) ∧
      (x = tb._clipBounds.x →
        (touchEvent INVALID_CONTACT_INDEX st tb .TOUCH_PRESS x y contactIndex).1 = false ∧
          (touchEvent INVALID_CONTACT_INDEX st tb .TOUCH_PRESS x y contactIndex).2._state =
            State.NORMAL) ∧
      (x = tb._clipBounds.x + tb._clipBounds.width → 0 < tb._clipBounds.width →
        tb._clipBounds.y < y → y ≤ tb._clipBounds.y + tb._clipBounds.height →
        (touchEvent INVALID_CONTACT_INDEX st tb .TOUCH_PRESS x y contactIndex).2._state =
          State.ACTIVE) := by
  obtain ⟨-, -, -, -, f5, -, -⟩ := setCaretLocation_fields st tb x y
  have hpress_in : inClipBounds tb x y = true →
      (touchEvent INVALID_CONTACT_INDEX st tb .TOUCH_PRESS x y contactIndex).2._state =
        State.ACTIVE := by
    intro hin
    simp only [touchEvent, hin, if_true]
  have hpress_out : inClipBounds tb x y = false →
      touchEvent INVALID_CONTACT_INDEX st tb .TOUCH_PRESS x y contactIndex =
        (false, { tb with
          _contactIndex := INVALID_CONTACT_INDEX
          _state := .NORMAL
          keyboardRequests := tb.keyboardRequests ++ [false]
          _dirty := true }) := by
    intro hout
    simp only [touchEvent, hout]
    rfl
  refine ⟨?_, ?_, ?_, ?_, ?_⟩
  · by_cases hin : inClipBounds tb x y = true
    · rw [if_pos ((inClipBounds_iff tb x y).mp hin)]
      exact hpress_in hin
    · rw [if_neg (fun h => hin ((inClipBounds_iff tb x y).mpr h)),
        hpress_out (by simpa using hin)]
  · by_cases hin : inClipBounds tb x y = true
    · rw [if_pos ((inClipBounds_iff tb x y).mp hin)]
      exact ((touchRelease_state INVALID_CONTACT_INDEX st tb x y contactIndex).1 hin)
    · rw [if_neg (fun h => hin ((inClipBounds_iff tb x y).mpr h))]
      exact ((touchRelease_state INVALID_CONTACT_INDEX st tb x y contactIndex).2
        (by simpa using hin))
  · by_cases hc : tb._state = State.ACTIVE ∧ inClipBounds tb x y = true
    · rw [if_pos ⟨hc.1, (inClipBounds_iff tb x y).mp hc.2⟩]
      have e : touchEvent INVALID_CONTACT_INDEX st tb .TOUCH_MOVE x y contactIndex =
          ((setCaretLocation st tb x y)._consumeInputEvents,
            { setCaretLocation st tb x y with _dirty := true }) := by
        simp only [touchEvent, if_pos hc]
      rw [e, f5]
    · rw [if_neg (fun h => hc ⟨h.1, (inClipBounds_iff tb x y).mpr h.2⟩)]
      simp only [touchEvent, if_neg hc]
  · intro hx
    have hout : inClipBounds tb x y = false := by
      apply Bool.eq_false_iff.mpr
      intro hin
      have := ((inClipBounds_iff tb x y).mp hin).1
      omega
    rw [hpress_out hout]
    exact ⟨rfl, rfl⟩
  · intro hx hw hy1 hy2
    exact hpress_in ((inClipBounds_iff tb x y).mpr ⟨by omega, by omega, hy1, hy2⟩)

/-- C18, at concrete inputs: on a clip rectangle with left edge 0 and width
200, a press at `x = 0` returns false with state NORMAL and a press at
`x = 200` ends in state ACTIVE. -/
theorem touch_bounds_test_witness :
    (touchEvent (-1) monoStyle (sampleBox "abc".toList 1) .TOUCH_PRESS 0 10 0).1 = false ∧
      (touchEvent (-1) monoStyle (sampleBox "abc".toList 1) .TOUCH_PRESS 0 10 0).2._state =
        State.NORMAL ∧
      (touchEvent (-1) monoStyle (sampleBox "abc".toList 1) .TOUCH_PRESS 200 10 0).2._state =
        State.ACTIVE :=
  ⟨((touch_bounds_test (-1) monoStyle (sampleBox "abc".toList 1) 0 10 0).2.2.2.1 rfl).1,
    ((touch_bounds_test (-1) monoStyle (sampleBox "abc".toList 1) 0 10 0).2.2.2.1 rfl).2,
    (touch_bounds_test (-1) monoStyle (sampleBox "abc".toList 1) 200 10 0).2.2.2.2 rfl
      (by decide) (by decide) (by decide)⟩

/-- The method `setCaretLocation`, written with the touch point and the
clamped point named. -/
theorem setCaretLocation_eq (st : Style) (tb : TextBox) (x y : Int) :
    setCaretLocation st tb x y =
      if (indexAtLocation st tb (getDisplayedText tb) (touchPoint tb x y)).1 = -1 then
        if (indexAtLocation st tb (getDisplayedText tb) (touchPoint tb x y)).2.x >
              (measureText st tb (getDisplayedText tb)).x +
                (measureText st tb (getDisplayedText tb)).width ∧
            (indexAtLocation st tb (getDisplayedText tb) (touchPoint tb x y)).2.y >
              (measureText st tb (getDisplayedText tb)).y +
                (measureText st tb (getDisplayedText tb)).height then
          { tb with
            _prevCaretLocation := tb._caretLocation
            _caretLocation :=
              locationAtIndex st tb (getDisplayedText tb)
                (indexAtLocation st tb (getDisplayedText tb) (touchPoint tb x y)).2
                (tb._text.length : Int) }
        else if (indexAtLocation st tb (getDisplayedText tb)
            (clampedPoint st tb
              (indexAtLocation st tb (getDisplayedText tb) (touchPoint tb x y)).2)).1 = -1 then
          { tb with _prevCaretLocation := tb._caretLocation, _caretLocation := tb._caretLocation }
        else
          { tb with
            _prevCaretLocation := tb._caretLocation
            _caretLocation :=
              (indexAtLocation st tb (getDisplayedText tb)
                (clampedPoint st tb
                  (indexAtLocation st tb (getDisplayedText tb) (touchPoint tb x y)).2)).2 }
      else
        { tb with
          _prevCaretLocation := tb._caretLocation
          _caretLocation :=
            (indexAtLocation st tb (getDisplayedText tb) (touchPoint tb x y)).2 } := rfl

/-- The method `setCaretLocation` when the font resolves no index at the touch
point and the point is not beyond both the right and the bottom edge of the
measured text: the caret is decided by the query at the clamped point. -/
theorem setCaretLocation_clamped (st : Style) (tb : TextBox) (x y : Int)
    (h1 : (indexAtLocation st tb (getDisplayedText tb) (touchPoint tb x y)).1 = -1)
    (h2 : ¬ ((indexAtLocation st tb (getDisplayedText tb) (touchPoint tb x y)).2.x >
          (measureText st tb (getDisplayedText tb)).x +
            (measureText st tb (getDisplayedText tb)).width ∧
        (indexAtLocation st tb (getDisplayedText tb) (touchPoint tb x y)).2.y >
          (measureText st tb (getDisplayedText tb)).y +
            (measureText st tb (getDisplayedText tb)).height)) :
    (setCaretLocation st tb x y)._caretLocation =
      if (indexAtLocation st tb (getDisplayedText tb)
          (clampedPoint st tb
            (indexAtLocation st tb (getDisplayedText tb) (touchPoint tb x y)).2)).1 = -1
      then tb._caretLocation
      else (indexAtLocation st tb (getDisplayedText tb)
          (clampedPoint st tb
            (indexAtLocation st tb (getDisplayedText tb) (touchPoint tb x y)).2)).2 := by
  rw [setCaretLocation_eq, if_pos h1, if_neg h2]
  split_ifs <;> rfl

/-- C19: when the font resolves no index at the touch point, the point is not
beyond both the right and the bottom edge of the measured text, and the font
again resolves no index at the clamped point, `setCaretLocation` leaves the
caret location equal to the one before the call and the buffer unchanged. -/
theorem setCaretLocation_reverts (st : Style) (tb : TextBox) (x y : Int)
    (h1 : (indexAtLocation st tb (getDisplayedText tb) (touchPoint tb x y)).1 = -1)
    (h2 : ¬ ((indexAtLocation st tb (getDisplayedText tb) (touchPoint tb x y)).2.x >
          (measureText st tb (getDisplayedText tb)).x +
            (measureText st tb (getDisplayedText tb)).width ∧
        (indexAtLocation st tb (getDisplayedText tb) (touchPoint tb x y)).2.y >
          (measureText st tb (getDisplayedText tb)).y +
            (measureText st tb (getDisplayedText tb)).height))
    (h3 : (indexAtLocation st tb (getDisplayedText tb)
      (clampedPoint st tb
        (indexAtLocation st tb (getDisplayedText tb) (touchPoint tb x y)).2)).1 = -1) :
    (setCaretLocation st tb x y)._caretLocation = tb._caretLocation ∧
      (setCaretLocation st tb x y)._text = tb._text := by
  refine ⟨?_, (setCaretLocation_fields st tb x y).1⟩
  rw [setCaretLocation_clamped st tb x y h1 h2, if_pos h3]

/-- C19, at a concrete input: a touch at `(8, 16)`, on the bottom edge of the
16 pixel high line of "abc", where the fixed-pitch font resolves no index
before or after clamping; the caret stays at `x = 8`. -/
theorem setCaretLocation_reverts_witness :
    (setCaretLocation monoStyle (sampleBox "abc".toList 1) 8 16)._caretLocation =
        { x := 8, y := 0 } ∧
      (setCaretLocation monoStyle (sampleBox "abc".toList 1) 8 16)._text = "abc".toList :=
  setCaretLocation_reverts monoStyle (sampleBox "abc".toList 1) 8 16 (by decide) (by decide)
    (by decide)

/-! ## Notifications of character events -/

theorem charBackspace_notified (st : Style) (tb tb1 : TextBox) (textIndex : Int)
    (h : charBackspace st tb textIndex = .ok tb1) : tb1.notified = tb.notified := by
  unfold charBackspace at h
  split_ifs at h
  · split at h
    · exact absurd h (by simp)
    · injection h with h
      subst h
      rfl
  · injection h with h
    subst h
    rfl

theorem undoInsert_notified (st : Style) (tb tb1 : TextBox) (textIndex : Int)
    (h : undoInsert st tb textIndex = .ok tb1) : tb1.notified = tb.notified := by
  unfold undoInsert at h
  split at h
  · exact absurd h (by simp)
  · injection h with h
    subst h
    rfl

theorem charInsert_notified (st : Style) (tb tb1 : TextBox) (textIndex key : Int)
    (h : charInsert st tb textIndex key = .ok tb1) : tb1.notified = tb.notified := by
  unfold charInsert at h
  split at h
  · exact absurd h (by simp)
  · simp only [] at h
    split_ifs at h
    · have hf := undoInsert_notified st _ tb1 textIndex h
      exact hf
    · have hf := undoInsert_notified st _ tb1 textIndex h
      exact hf
    · injection h with h
      subst h
      rfl

/-- The cases Return and Escape of the `KEY_CHAR` switch: nothing but the
index resolution, the notification and the recording of the key. -/
theorem keyEvent_char_return_escape (K : Keyboard) (st : Style) (tb : TextBox) (key : Int)
    (hkey : key = K.KEY_RETURN ∨ key = K.KEY_ESCAPE) :
    keyEvent K st tb .KEY_CHAR key =
      .ok (tb._consumeInputEvents,
        { afterResolve st tb with
          notified := tb.notified ++ [ListenerEvent.TEXT_CHANGED]
          _lastKeypress := key }) := by
  have hb : key ≠ K.KEY_BACKSPACE := by
    rcases hkey with h | h <;>
      (intro hh; have hn := K.char_labels; rw [← hh, h] at hn; simp at hn)
  rcases hkey with h | h
  · simp only [keyEvent, if_neg hb, if_pos h]
    rfl
  · have hr : key ≠ K.KEY_RETURN := by
      intro hh; have hn := K.char_labels; rw [← hh, h] at hn; simp at hn
    simp only [keyEvent, if_neg hb, if_neg hr, if_pos h]
    rfl

/-- A `KEY_CHAR` event whose key is not Tab, when it returns, has added one
TEXT_CHANGED notification. -/
theorem keyEvent_char_notified (K : Keyboard) (st : Style) (tb : TextBox) (key : Int)
    (r : Bool × TextBox) (h : keyEvent K st tb .KEY_CHAR key = .ok r) (hk : key ≠ K.KEY_TAB) :
    r.2.notified = tb.notified ++ [ListenerEvent.TEXT_CHANGED] := by
  by_cases hb : key = K.KEY_BACKSPACE
  · subst hb
    rw [keyEvent_char_backspace] at h
    split at h
    · exact absurd h (by simp)
    · rename_i tb1 heq
      injection h with h; subst h
      have hf := charBackspace_notified st _ tb1 _ heq
      show tb1.notified ++ _ = _
      rw [hf]
      rfl
  · by_cases hins : IsInsertKey K key
    · rw [keyEvent_char_default K st tb key hins] at h
      split at h
      · exact absurd h (by simp)
      · rename_i tb1 heq
        injection h with h; subst h
        have hf := charInsert_notified st _ tb1 _ _ heq
        show tb1.notified ++ _ = _
        rw [hf]
        rfl
    · have hre : key = K.KEY_RETURN ∨ key = K.KEY_ESCAPE := by
        unfold IsInsertKey at hins
        by_contra hcon
        exact hins ⟨hb, fun h1 => hcon (Or.inl h1), fun h1 => hcon (Or.inr h1), hk⟩
      rw [keyEvent_char_return_escape K st tb key hre] at h
      injection h with h; subst h
      rfl

/-- C20: every `KEY_CHAR` event whose key is not Tab, when it returns, has
notified TEXT_CHANGED exactly once, and it returns whenever the resolved index
is inside `[0, length]`.  The buffer need not have changed: Return and Escape,
Backspace at index 0, and an insertion undone by the space test or by the
measured-text test all return with the buffer as it was and the one
notification added. -/
theorem keyChar_always_notifies (K : Keyboard) (st : Style) (tb : TextBox) (key : Int) :
    (∀ r, keyEvent K st tb .KEY_CHAR key = .ok r → key ≠ K.KEY_TAB →
        r.2.notified = tb.notified ++ [ListenerEvent.TEXT_CHANGED]) ∧
      (ResolvedInRange K st (tb, KeyEvent.KEY_CHAR, key) →
        ∃ r, keyEvent K st tb .KEY_CHAR key = .ok r) ∧
      (key = K.KEY_RETURN ∨ key = K.KEY_ESCAPE →
        ∃ tb', keyEvent K st tb .KEY_CHAR key = .ok (tb._consumeInputEvents, tb') ∧
          tb'._text = tb._text ∧
          tb'.notified = tb.notified ++ [ListenerEvent.TEXT_CHANGED]) ∧
      (key = K.KEY_BACKSPACE → (resolveCharIndex st tb).1 = 0 →
        ∃ tb', keyEvent K st tb .KEY_CHAR key = .ok (tb._consumeInputEvents, tb') ∧
          tb'._text = tb._text ∧
          tb'.notified = tb.notified ++ [ListenerEvent.TEXT_CHANGED]) ∧
      (IsInsertKey K key → ∀ i : Nat, (resolveCharIndex st tb).1 = (i : Int) →
        i ≤ tb._text.length →
        (spaceRejected st (afterResolve st tb) i key = true ∨
          measureRejected st (afterResolve st tb) i key = true) →
        ∃ tb', keyEvent K st tb .KEY_CHAR key = .ok (tb._consumeInputEvents, tb') ∧
          tb'._text = tb._text ∧
          tb'.notified = tb.notified ++ [ListenerEvent.TEXT_CHANGED]) := by
  refine ⟨fun r h hk => keyEvent_char_notified K st tb key r h hk, ?_, ?_, ?_, ?_⟩
  · intro hrange
    exact keyEvent_returns K st tb .KEY_CHAR key hrange (by simp [wordJumpUndefined])
  · intro hkey
    rw [keyEvent_char_return_escape K st tb key hkey]
    exact ⟨_, rfl, rfl, rfl⟩
  · intro hb h0
    subst hb
    have h1 : charBackspace st (afterResolve st tb) 0 = .ok (afterResolve st tb) := by
      unfold charBackspace
      simp
    rw [keyEvent_char_backspace, h0, h1]
    exact ⟨_, rfl, rfl, rfl⟩
  · intro hins i hidx hi hrej
    rw [keyEvent_char_default K st tb key hins, hidx,
      charInsert_at st (afterResolve st tb) i key hi, if_pos hrej]
    exact ⟨_, rfl, rfl, rfl⟩

set_option maxRecDepth 8000 in
/-- C20, at concrete inputs: Backspace at index 0 of "abc" and the rejected
insertion of `c` into a full 24 pixel wide box each leave the buffer as it was
and notify TEXT_CHANGED once. -/
theorem keyChar_always_notifies_witness :
    (∃ tb', keyEvent sampleKeys monoStyle (sampleBox "abc".toList 0) .KEY_CHAR 8 =
        .ok (true, tb') ∧
      tb'._text = "abc".toList ∧ tb'.notified = [ListenerEvent.TEXT_CHANGED]) ∧
      ∃ tb', keyEvent sampleKeys monoStyle
          { sampleBox "ab".toList 2 with
            _textBounds := { x := 0, y := 0, width := 24, height := 20 } } .KEY_CHAR 99 =
          .ok (true, tb') ∧
        tb'._text = "ab".toList ∧ tb'.notified = [ListenerEvent.TEXT_CHANGED] :=
  ⟨(keyChar_always_notifies sampleKeys monoStyle (sampleBox "abc".toList 0) 8).2.2.2.1 rfl
      (by decide),
    (keyChar_always_notifies sampleKeys monoStyle
      { sampleBox "ab".toList 2 with
        _textBounds := { x := 0, y := 0, width := 24, height := 20 } } 99).2.2.2.2
      (by decide) 2 (by decide) (by decide) (by decide)⟩

/-! ## Navigation in PASSWORD mode -/

theorem getDisplayedText_password (tb : TextBox) (h : tb._inputMode = InputMode.PASSWORD) :
    getDisplayedText tb = List.replicate tb._text.length tb._passwordChar := by
  unfold getDisplayedText
  rw [h]

/-- The caret location after a Left-arrow press, in terms of the new index. -/
theorem keyEvent_left_caret (K : Keyboard) (st : Style) (tb : TextBox) :
    (keyEvent K st tb .KEY_PRESS K.KEY_LEFT_ARROW).map (fun r => r.2._caretLocation) =
      (leftArrowIndex tb._ctrlPressed (getDisplayedText tb) (fontIndex st tb)).map
        (fun k => locationAtIndex st tb (getDisplayedText tb)
          (indexAtLocation st tb (getDisplayedText tb) tb._caretLocation).2 k) := by
  rw [keyEvent_press_left]
  cases hk : leftArrowIndex tb._ctrlPressed (getDisplayedText tb) (fontIndex st tb) with
  | ok k =>
    rw [keyLeftArrow_eq st tb k hk]
    rfl
  | error f =>
    have he : keyLeftArrow st tb = .error f := by
      unfold keyLeftArrow
      unfold fontIndex at hk
      simp only [hk]
    rw [he]
    rfl

/-- The caret location after a Right-arrow press, in terms of the new index. -/
theorem keyEvent_right_caret (K : Keyboard) (st : Style) (tb : TextBox) :
    (keyEvent K st tb .KEY_PRESS K.KEY_RIGHT_ARROW).map (fun r => r.2._caretLocation) =
      (rightArrowIndex tb._ctrlPressed (getDisplayedText tb) (fontIndex st tb)).map
        (fun k => locationAtIndex st tb (getDisplayedText tb)
          (indexAtLocation st tb (getDisplayedText tb) tb._caretLocation).2 k) := by
  rw [keyEvent_press_right]
  cases hk : rightArrowIndex tb._ctrlPressed (getDisplayedText tb) (fontIndex st tb) with
  | ok k =>
    rw [keyRightArrow_eq st tb k hk]
    rfl
  | error f =>
    have he : keyRightArrow st tb = .error f := by
      unfold keyRightArrow
      unfold fontIndex at hk
      simp only [hk]
    rw [he]
    rfl

/-- A word jump to the left on a string made of one non-whitespace character
ends at index 0. -/
theorem wordLeftIndex_replicate (n : Nat) (c : Char) (i : Nat) (hc : isspace c = false)
    (h1 : 1 ≤ i) (h2 : i ≤ n) : wordLeftIndex (List.replicate n c) (i : Int) = .ok 0 := by
  obtain ⟨k, hk, hspec⟩ := wordLeftIndex_spec (List.replicate n c) i h1
    (by rw [List.length_replicate]; omega)
  rcases hspec with ⟨h0, -⟩ | ⟨pre, w, post, hsplit, hw, -, -⟩
  · rw [hk, h0]
    rfl
  · exfalso
    have hmem : w ∈ (List.replicate n c).take (i - 1) := by
      rw [hsplit]
      simp
    have hw2 : w = c := List.eq_of_mem_replicate (List.mem_of_mem_take hmem)
    rw [hw2, hc] at hw
    exact Bool.false_ne_true hw

/-- A word jump to the right on a string made of one non-whitespace character
ends at the length of the string. -/
theorem wordRightIndex_replicate (n : Nat) (c : Char) (i : Nat) (hc : isspace c = false)
    (h : i < n) : wordRightIndex (List.replicate n c) (i : Int) = .ok (n : Int) := by
  have hn : ¬ ((i : Int) + 1 < 0 ∨ ((List.replicate n c).length : Int) < (i : Int) + 1) := by
    rw [List.length_replicate]; omega
  have hn2 : ((i : Int) + 1).toNat = i + 1 := by omega
  unfold wordRightIndex
  simp only [if_neg hn, hn2, find_if]
  have hall : ∀ x ∈ (List.replicate n c).drop (i + 1), space x = false := by
    intro x hx
    have hx2 : x = c := List.eq_of_mem_replicate (List.mem_of_mem_drop hx)
    rw [hx2]
    exact hc
  rw [List.findIdx_eq_length_of_false hall, List.length_drop, List.length_replicate]
  congr 1
  omega

/-- C21: two controls in PASSWORD mode whose buffers have the same length, with
the same mask character, modifier flag, state, text bounds and caret location,
under the same style and font, compute the same new index for a Left-arrow
and for a Right-arrow press and end with the same caret location (or fail to
return in the same way).  With a non-whitespace mask and the modifier held,
Left from an index `i` with `1 ≤ i ≤ length` gives index 0 and Right from an
index `i < length` gives index `length`, whatever the buffers hold. -/
theorem password_navigation_hides_buffer (K : Keyboard) (st : Style) (a b : TextBox)
    (hma : a._inputMode = InputMode.PASSWORD) (hmb : b._inputMode = InputMode.PASSWORD)
    (hlen : a._text.length = b._text.length) (hmask : a._passwordChar = b._passwordChar)
    (hctrl : a._ctrlPressed = b._ctrlPressed) (hstate : a._state = b._state)
    (hbounds : a._textBounds = b._textBounds) (hcaret : a._caretLocation = b._caretLocation) :
    leftArrowIndex a._ctrlPressed (getDisplayedText a) (fontIndex st a) =
        leftArrowIndex b._ctrlPressed (getDisplayedText b) (fontIndex st b) ∧
      rightArrowIndex a._ctrlPressed (getDisplayedText a) (fontIndex st a) =
        rightArrowIndex b._ctrlPressed (getDisplayedText b) (fontIndex st b) ∧
      (keyEvent K st a .KEY_PRESS K.KEY_LEFT_ARROW).map (fun r => r.2._caretLocation) =
        (keyEvent K st b .KEY_PRESS K.KEY_LEFT_ARROW).map (fun r => r.2._caretLocation) ∧
      (keyEvent K st a .KEY_PRESS K.KEY_RIGHT_ARROW).map (fun r => r.2._caretLocation) =
        (keyEvent K st b .KEY_PRESS K.KEY_RIGHT_ARROW).map (fun r => r.2._caretLocation) ∧
      (isspace a._passwordChar = false → a._ctrlPressed = true →
        ∀ i : Nat, fontIndex st a = (i : Int) →
          (1 ≤ i → i ≤ a._text.length →
            leftArrowIndex a._ctrlPressed (getDisplayedText a) (fontIndex st a) = .ok 0 ∧
            leftArrowIndex b._ctrlPressed (getDisplayedText b) (fontIndex st b) = .ok 0) ∧
          (i < a._text.length →
            rightArrowIndex a._ctrlPressed (getDisplayedText a) (fontIndex st a) =
              .ok (a._text.length : Int) ∧
            rightArrowIndex b._ctrlPressed (getDisplayedText b) (fontIndex st b) =
              .ok (b._text.length : Int))) := by
  have hdisp : getDisplayedText a = getDisplayedText b := by
    rw [getDisplayedText_password a hma, getDisplayedText_password b hmb, hlen, hmask]
  have hidx : ∀ loc, indexAtLocation st a (getDisplayedText b) loc =
      indexAtLocation st b (getDisplayedText b) loc := by
    intro loc
    unfold indexAtLocation
    rw [hstate, hbounds]
  have hloc : ∀ cur k, locationAtIndex st a (getDisplayedText b) cur k =
      locationAtIndex st b (getDisplayedText b) cur k := by
    intro cur k
    unfold locationAtIndex
    rw [hstate, hbounds]
  have hfont : fontIndex st a = fontIndex st b := by
    unfold fontIndex
    rw [hdisp, hidx, hcaret]
  have hleft : leftArrowIndex a._ctrlPressed (getDisplayedText a) (fontIndex st a) =
      leftArrowIndex b._ctrlPressed (getDisplayedText b) (fontIndex st b) := by
    rw [hdisp, hfont, hctrl]
  have hright : rightArrowIndex a._ctrlPressed (getDisplayedText a) (fontIndex st a) =
      rightArrowIndex b._ctrlPressed (getDisplayedText b) (fontIndex st b) := by
    rw [hdisp, hfont, hctrl]
  refine ⟨hleft, hright, ?_, ?_, ?_⟩
  · rw [keyEvent_left_caret, keyEvent_left_caret, hleft, hdisp, hcaret, hidx]
    congr 1
    funext k
    exact hloc _ k
  · rw [keyEvent_right_caret, keyEvent_right_caret, hright, hdisp, hcaret, hidx]
    congr 1
    funext k
    exact hloc _ k
  · intro hsp hc i hi
    constructor
    · intro h1 h2
      have e : leftArrowIndex a._ctrlPressed (getDisplayedText a) (fontIndex st a) = .ok 0 := by
        unfold leftArrowIndex
        rw [if_pos hc, hi, getDisplayedText_password a hma]
        exact wordLeftIndex_replicate _ _ i hsp h1 h2
      exact ⟨e, hleft ▸ e⟩
    · intro h1
      have e : rightArrowIndex a._ctrlPressed (getDisplayedText a) (fontIndex st a) =
          .ok (a._text.length : Int) := by
        unfold rightArrowIndex
        rw [if_pos hc, hi, getDisplayedText_password a hma]
        exact wordRightIndex_replicate _ _ i hsp h1
      refine ⟨e, ?_⟩
      rw [← hright, e, hlen]

set_option maxRecDepth 8000 in
/-- C21, at a concrete input: "hello world" and "abcdefghijk" behind the mask
`*`, modifier held, caret at index 6: a Left-arrow press puts the caret of
both at `x = 0` (index 0) and a Right-arrow press at `x = 88` (index 11). -/
theorem password_navigation_hides_buffer_witness :
    (keyEvent sampleKeys monoStyle
        { sampleBox "hello world".toList 6 with _inputMode := .PASSWORD, _ctrlPressed := true }
        .KEY_PRESS sampleKeys.KEY_LEFT_ARROW).map (fun r => r.2._caretLocation) =
        .ok { x := 0, y := 0 } ∧
      (keyEvent sampleKeys monoStyle
        { sampleBox "abcdefghijk".toList 6 with _inputMode := .PASSWORD, _ctrlPressed := true }
        .KEY_PRESS sampleKeys.KEY_LEFT_ARROW).map (fun r => r.2._caretLocation) =
        .ok { x := 0, y := 0 } ∧
      (keyEvent sampleKeys monoStyle
        { sampleBox "hello world".toList 6 with _inputMode := .PASSWORD, _ctrlPressed := true }
        .KEY_PRESS sampleKeys.KEY_RIGHT_ARROW).map (fun r => r.2._caretLocation) =
        .ok { x := 88, y := 0 } ∧
      (keyEvent sampleKeys monoStyle
        { sampleBox "abcdefghijk".toList 6 with _inputMode := .PASSWORD, _ctrlPressed := true }
        .KEY_PRESS sampleKeys.KEY_RIGHT_ARROW).map (fun r => r.2._caretLocation) =
        .ok { x := 88, y := 0 } := by
  have h := password_navigation_hides_buffer sampleKeys monoStyle
    { sampleBox "hello world".toList 6 with _inputMode := .PASSWORD, _ctrlPressed := true }
    { sampleBox "abcdefghijk".toList 6 with _inputMode := .PASSWORD, _ctrlPressed := true }
    rfl rfl rfl rfl rfl rfl rfl rfl
  refine ⟨rfl, ?_, rfl, ?_⟩
  · rw [← h.2.2.1]
    rfl
  · rw [← h.2.2.2.1]
    rfl

end gameplay
